import Mathlib

/-!
Verification development for the go-fed/syrup codec.

The Go source is shallowly embedded:
* bytes are `Nat` (values 0..255 where produced by the encoder),
* Go strings and byte slices are `List Nat` (their byte content),
* machine integers are `Nat`/`Int` with explicit wrap-arounds where the Go
  code can overflow (`uint64` decrement in the scanner, `uint64(i)`
  reinterpretation in `storeInt`),
* the `Encoding` function table is specialized to the prototype syrup
  encoding (`NewPrototypeEncoding`), the only encoding in the repository;
  its mutable `nlen` float countdown field lives on the `Scanner` state,
* `reflect` destinations are a deep universe `GoTy`/`GoVal`; `float32` and
  `float64` typed destinations are outside the modeled universe (no claim
  concerns them), so the `reflect.Float32/Float64` branches of the store
  functions are not represented; float wire values themselves are modeled
  by their IEEE-754 bit patterns, which is faithful because the codec only
  moves those bit patterns around,
* the recursive decoder is written fuel-indexed; the fuel given by
  `Decoder.Decode` is generous enough for every input (each loop iteration
  of `Decoder.run` consumes an input byte).
-/

namespace Syrup

/-- Scan states of the streaming scanner (scanner.go). -/
inductive ScanState where
  | scanFindToken
  | scanTokenLen
  | scanString
  | scanFirstInt
  | scanInt
  | scanFloat64
  | scanFloat32
  | scanSymbol
  | scanByteArr
deriving DecidableEq, Repr

/-- Semantic operations emitted by the scanner (scanner.go). -/
inductive Op where
  | noop
  | valBoolop
  | valByteArrOp
  | valSymbolOp
  | valStringOp
  | valIntOp
  | valFloat32Op
  | valFloat64Op
  | openListOp
  | openDictOp
  | openSetOp
  | openRecordOp
  | closeListOp
  | closeDictOp
  | closeSetOp
  | closeRecordOp
deriving DecidableEq, Repr

/-- Errors produced by the scanner and the prototype encoding functions.
Go reports them as formatted strings; the model keeps them structured. -/
inductive ScanErr where
  | unknownTokenByte (b : Nat)
  | malformedLenByte (b : Nat)
  | malformedIntByte (b : Nat)
  | floatCountdown32
  | floatCountdown64
  | lenSyntax
  | lenRange
  | lenBadState
  | boolValLen (n : Nat)
  | boolValUnknown
  | intSyntax
  | shortFloatBuf
  | unknownScanState
deriving DecidableEq, Repr

/-- Is `b` one of the ten ASCII digit bytes. -/
def isDigitByte (b : Nat) : Bool := 48 ≤ b && b ≤ 57

/-- Bytes 0..255 whose rune satisfies Go `unicode.IsSpace`:
tab, newline, vertical tab, form feed, carriage return, space,
next line (133) and no-break space (160). -/
def isSpaceByte (b : Nat) : Bool :=
  b = 9 || b = 10 || b = 11 || b = 12 || b = 13 || b = 32 || b = 133 || b = 160

/-- Value of a decimal digit run; `none` when empty or any byte is not a
digit.  Used to model `strconv.ParseUint`/`ParseInt` on the byte runs the
scanner accumulates. -/
def decDigitsVal (bs : List Nat) : Option Nat :=
  if bs = [] || bs.any (fun b => !isDigitByte b) then none
  else some (bs.foldl (fun acc b => acc * 10 + (b - 48)) 0)

/-- Model of `strconv.ParseUint(s, 10, 64)`: syntax error on an empty or
non-digit run, range error at `2^64` and above. -/
def goParseUint64 (bs : List Nat) : Except ScanErr Nat :=
  match decDigitsVal bs with
  | none => .error .lenSyntax
  | some v => if v < 18446744073709551616 then .ok v else .error .lenRange

/-- Decimal digit bytes of `n`, most significant first, as produced by
`strconv.FormatInt`/`FormatUint` (no leading zeros, single `0` for zero).
Structurally fueled so that concrete terms reduce; `n + 1` fuel always
suffices since `n / 10 < n` for positive `n`. -/
def natDecimalAux : Nat → Nat → List Nat
  | 0, _ => []
  | fuel + 1, n => if n < 10 then [48 + n] else natDecimalAux fuel (n / 10) ++ [48 + n % 10]

/-- Decimal digit bytes of a natural number. -/
def natDecimal (n : Nat) : List Nat := natDecimalAux (n + 1) n

/-- Decimal digit bytes of an integer, with a leading minus sign byte when
negative, as produced by `strconv.FormatInt(i, 10)` and `big.Int.Text(10)`. -/
def intDecimal (i : Int) : List Nat :=
  if i < 0 then 45 :: natDecimal i.natAbs else natDecimal i.toNat

/-- Format function `syrupProtoString`: decimal length, `"` (34), payload. -/
def syrupProtoString (s : List Nat) : List Nat := natDecimal s.length ++ [34] ++ s

/-- Format function `syrupProtoSymbol`: decimal length, `'` (39), payload. -/
def syrupProtoSymbol (s : List Nat) : List Nat := natDecimal s.length ++ [39] ++ s

/-- Format function `syrupProtoBytes`: decimal length, `:` (58), payload. -/
def syrupProtoBytes (s : List Nat) : List Nat := natDecimal s.length ++ [58] ++ s

/-- Format function `syrupProtoInt`: `i` (105), decimal digits, `e` (101). -/
def syrupProtoInt (i : Int) : List Nat := 105 :: intDecimal i ++ [101]

/-- Format function `syrupProtoUint`. -/
def syrupProtoUint (u : Nat) : List Nat := 105 :: natDecimal u ++ [101]

/-- Format function `syrupProtoBigInt` (`big.Int.Text 10` between `i`/`e`). -/
def syrupProtoBigInt (i : Int) : List Nat := 105 :: intDecimal i ++ [101]

/-- Format function `syrupProtoBool`: `t` (116) or `f` (102). -/
def syrupProtoBool (b : Bool) : List Nat := if b then [116] else [102]

/-- Big-endian 4-byte representation of 32 bits. -/
def be4 (bits : Nat) : List Nat :=
  [bits / 2 ^ 24 % 256, bits / 2 ^ 16 % 256, bits / 2 ^ 8 % 256, bits % 256]

/-- Big-endian 8-byte representation of 64 bits. -/
def be8 (bits : Nat) : List Nat :=
  [bits / 2 ^ 56 % 256, bits / 2 ^ 48 % 256, bits / 2 ^ 40 % 256, bits / 2 ^ 32 % 256,
   bits / 2 ^ 24 % 256, bits / 2 ^ 16 % 256, bits / 2 ^ 8 % 256, bits % 256]

/-- Format function `syrupProtoFloat32`: `F` (70) then big-endian bits. -/
def syrupProtoFloat32 (bits : Nat) : List Nat := 70 :: be4 bits

/-- Format function `syrupProtoFloat64`: `D` (68) then big-endian bits. -/
def syrupProtoFloat64 (bits : Nat) : List Nat := 68 :: be8 bits

/-- Open and close marker bytes of the prototype encoding. -/
def syrupProtoListOpen : List Nat := [91]

/-- Close marker `]`. -/
def syrupProtoListClose : List Nat := [93]

/-- Open marker for dictionaries (byte 123). -/
def syrupProtoDictOpen : List Nat := [123]

/-- Close marker for dictionaries (byte 125). -/
def syrupProtoDictClose : List Nat := [125]

/-- Open marker `#`. -/
def syrupProtoSetOpen : List Nat := [35]

/-- Close marker `$`. -/
def syrupProtoSetClose : List Nat := [36]

/-- Open marker `<`. -/
def syrupProtoRecordOpen : List Nat := [60]

/-- Close marker `>`. -/
def syrupProtoRecordClose : List Nat := [62]

/-- Scan function `syrupProtoMustFindToken`: classify a byte in the
`scanFindToken` state, returning next state, op and include flag. -/
def syrupProtoMustFindToken (b : Nat) : Except ScanErr (ScanState × Op × Bool) :=
  if isSpaceByte b then .ok (.scanFindToken, .noop, false)
  else if isDigitByte b then .ok (.scanTokenLen, .noop, true)
  else if b = 105 then .ok (.scanFirstInt, .noop, false)
  else if b = 116 then .ok (.scanFindToken, .valBoolop, true)
  else if b = 102 then .ok (.scanFindToken, .valBoolop, true)
  else if b = 70 then .ok (.scanFloat32, .noop, false)
  else if b = 68 then .ok (.scanFloat64, .noop, false)
  else if b = 91 then .ok (.scanFindToken, .openListOp, false)
  else if b = 123 then .ok (.scanFindToken, .openDictOp, false)
  else if b = 35 then .ok (.scanFindToken, .openSetOp, false)
  else if b = 60 then .ok (.scanFindToken, .openRecordOp, false)
  else if b = 93 then .ok (.scanFindToken, .closeListOp, false)
  else if b = 125 then .ok (.scanFindToken, .closeDictOp, false)
  else if b = 36 then .ok (.scanFindToken, .closeSetOp, false)
  else if b = 62 then .ok (.scanFindToken, .closeRecordOp, false)
  else .error (.unknownTokenByte b)

/-- Scan function `syrupProtoScanTokenLen`: digits continue the length,
`'` (39) / `"` (34) / `:` (58) select symbol, string or byte string. -/
def syrupProtoScanTokenLen (b : Nat) : Except ScanErr (ScanState × Op × Bool) :=
  if isDigitByte b then .ok (.scanTokenLen, .noop, true)
  else if b = 39 then .ok (.scanSymbol, .noop, false)
  else if b = 34 then .ok (.scanString, .noop, false)
  else if b = 58 then .ok (.scanByteArr, .noop, false)
  else .error (.malformedLenByte b)

/-- Scan function `syrupProtoScanFirstIntToken`: a minus sign or a digit
continues, `e` (101) ends the (empty) digit run. -/
def syrupProtoScanFirstIntToken (b : Nat) : Except ScanErr (ScanState × Op × Bool) :=
  if b = 45 || isDigitByte b then .ok (.scanInt, .noop, true)
  else if b = 101 then .ok (.scanFindToken, .valIntOp, false)
  else .error (.malformedIntByte b)

/-- Scan function `syrupProtoScanIntToken`. -/
def syrupProtoScanIntToken (b : Nat) : Except ScanErr (ScanState × Op × Bool) :=
  if isDigitByte b then .ok (.scanInt, .noop, true)
  else if b = 101 then .ok (.scanFindToken, .valIntOp, false)
  else .error (.malformedIntByte b)

/-- Scan function `syrupProtoScanFloat32Token` on the already decremented
countdown value (Go never returns an error from it). -/
def syrupProtoScanFloat32Token (n : Nat) : ScanState × Op × Bool :=
  if n = 0 then (.scanFindToken, .valFloat32Op, true) else (.scanFloat32, .noop, true)

/-- Scan function `syrupProtoScanFloat64Token`. -/
def syrupProtoScanFloat64Token (n : Nat) : ScanState × Op × Bool :=
  if n = 0 then (.scanFindToken, .valFloat64Op, true) else (.scanFloat64, .noop, true)

/-- Parser `syrupProtoParsedLen`: parse the accumulated decimal length; at
length zero return the value op for the kind selected by `next` (the
fast path for empty strings, symbols and byte strings). -/
def syrupProtoParsedLen (s : List Nat) (next : ScanState) : Except ScanErr (Op × Nat) :=
  match goParseUint64 s with
  | .error e => .error e
  | .ok l =>
    if l = 0 then
      match next with
      | .scanSymbol => .ok (.valSymbolOp, l)
      | .scanString => .ok (.valStringOp, l)
      | .scanByteArr => .ok (.valByteArrOp, l)
      | _ => .error .lenBadState
    else .ok (.noop, l)

/-- Parser `syrupProtoBoolVal`. -/
def syrupProtoBoolVal (bs : List Nat) : Except ScanErr Bool :=
  match bs with
  | [b] => if b = 116 then .ok true else if b = 102 then .ok false else .error .boolValUnknown
  | _ => .error (.boolValLen bs.length)

/-- Parser `syrupProtoInt64Val`, modeling `strconv.ParseInt(s, 10, 64)`
followed on range error by `big.Int.SetString(s, 10)`: in the signed
64-bit range the pair is `(value, none)`, outside it `(0, some value)`. -/
def syrupProtoInt64Val (bs : List Nat) : Except ScanErr (Int × Option Int) :=
  let signAndDigits : Bool × List Nat :=
    match bs with
    | 45 :: rest => (true, rest)
    | 43 :: rest => (false, rest)
    | _ => (false, bs)
  match decDigitsVal signAndDigits.2 with
  | none => .error .intSyntax
  | some m =>
    let v : Int := if signAndDigits.1 then -(m : Int) else (m : Int)
    if v < -9223372036854775808 || v > 9223372036854775807 then .ok (0, some v)
    else .ok (v, none)

/-- Parser `syrupProtoFloat32Val`: big-endian bits of the first four
buffered bytes (Go panics when fewer than four are buffered; the model
reports an error for that unreachable case). -/
def syrupProtoFloat32Val (bs : List Nat) : Except ScanErr Nat :=
  match bs with
  | b0 :: b1 :: b2 :: b3 :: _ => .ok (((b0 * 256 + b1) * 256 + b2) * 256 + b3)
  | _ => .error .shortFloatBuf

/-- Parser `syrupProtoFloat64Val`. -/
def syrupProtoFloat64Val (bs : List Nat) : Except ScanErr Nat :=
  match bs with
  | b0 :: b1 :: b2 :: b3 :: b4 :: b5 :: b6 :: b7 :: _ =>
    .ok (((((((b0 * 256 + b1) * 256 + b2) * 256 + b3) * 256 + b4) * 256 + b5) * 256
      + b6) * 256 + b7)
  | _ => .error .shortFloatBuf

/-- The largest `uint64` value, produced when the scanner decrements a
zero payload counter. -/
def u64Max : Nat := 18446744073709551615

/-- Per-stream scanner state (struct `scanner` in scanner.go).  `fnlen` is
the prototype `Encoding`'s `nlen` float countdown byte, carried here
because each `Decoder` owns its own `Encoding` value. -/
structure Scanner where
  s : ScanState
  buf : List Nat
  nlen : Nat
  fnlen : Nat
deriving DecidableEq, Repr

/-- A scanner in its initial state, as created by `NewDecoder`. -/
def Scanner.fresh : Scanner := { s := .scanFindToken, buf := [], nlen := 0, fnlen := 0 }

/-- `scanner.processLengthDeterminedType`: include the byte, decrement the
remaining payload count (`uint64` wrap-around on zero), and emit the value
op once the count reaches zero. -/
def lengthDeterminedStep (cur : ScanState) (maybeOp : Op) (nlen : Nat) :
    ScanState × Op × Bool × Nat :=
  let nlen' := if nlen = 0 then u64Max else nlen - 1
  if nlen' = 0 then (.scanFindToken, maybeOp, true, nlen') else (cur, .noop, true, nlen')

/-- `scanner.Process`: one byte of input.  Dispatches on the current state
to the prototype scan functions, appends included bytes to the buffer,
performs the `parseLen` handoff when leaving `scanTokenLen`, and advances
the state.  On an error the Go code returns before mutating the scanner,
and every scan-function error carries a `noop` op. -/
def Scanner.Process : Scanner → Nat → Except ScanErr (Scanner × Op)
  | ⟨s0, buf, nlen, fnlen⟩, b =>
    let step : Except ScanErr (ScanState × Op × Bool × Nat × Nat) :=
      match s0 with
      | .scanFindToken =>
        match syrupProtoMustFindToken b with
        | .error e => .error e
        | .ok (next, oper, incl) =>
          let fn := if next = .scanFloat32 then 4 else if next = .scanFloat64 then 8 else fnlen
          .ok (next, oper, incl, nlen, fn)
      | .scanTokenLen =>
        match syrupProtoScanTokenLen b with
        | .error e => .error e
        | .ok (next, oper, incl) => .ok (next, oper, incl, nlen, fnlen)
      | .scanSymbol =>
        let (next, oper, incl, nlen') := lengthDeterminedStep .scanSymbol .valSymbolOp nlen
        .ok (next, oper, incl, nlen', fnlen)
      | .scanString =>
        let (next, oper, incl, nlen') := lengthDeterminedStep .scanString .valStringOp nlen
        .ok (next, oper, incl, nlen', fnlen)
      | .scanByteArr =>
        let (next, oper, incl, nlen') := lengthDeterminedStep .scanByteArr .valByteArrOp nlen
        .ok (next, oper, incl, nlen', fnlen)
      | .scanInt =>
        match syrupProtoScanIntToken b with
        | .error e => .error e
        | .ok (next, oper, incl) => .ok (next, oper, incl, nlen, fnlen)
      | .scanFirstInt =>
        match syrupProtoScanFirstIntToken b with
        | .error e => .error e
        | .ok (next, oper, incl) => .ok (next, oper, incl, nlen, fnlen)
      | .scanFloat64 =>
        if fnlen = 0 then .error .floatCountdown64
        else
          let fn := fnlen - 1
          let (next, oper, incl) := syrupProtoScanFloat64Token fn
          .ok (next, oper, incl, nlen, fn)
      | .scanFloat32 =>
        if fnlen = 0 then .error .floatCountdown32
        else
          let fn := fnlen - 1
          let (next, oper, incl) := syrupProtoScanFloat32Token fn
          .ok (next, oper, incl, nlen, fn)
    match step with
    | .error e => .error e
    | .ok (next, oper, incl, nlen1, fn1) =>
      let buf1 := if incl then buf ++ [b] else buf
      if s0 = ScanState.scanTokenLen ∧ next ≠ ScanState.scanTokenLen then
        match syrupProtoParsedLen buf1 next with
        | .error e => .error e
        | .ok (oper2, l) => .ok (⟨next, [], l, fn1⟩, oper2)
      else .ok (⟨next, buf1, nlen1, fn1⟩, oper)

/-- Accessor `scanner.Bool`: parse and reset the buffer (the Go accessors
reset the buffer even when the parse fails). -/
def Scanner.BoolVal : Scanner → Except ScanErr Bool × Scanner
  | ⟨s, buf, nlen, fnlen⟩ => (syrupProtoBoolVal buf, ⟨s, [], nlen, fnlen⟩)

/-- Accessor `scanner.Bytes`. -/
def Scanner.BytesVal : Scanner → List Nat × Scanner
  | ⟨s, buf, nlen, fnlen⟩ => (buf, ⟨s, [], nlen, fnlen⟩)

/-- Accessor `scanner.Symbol` (`syrupProtoSymbolVal` is the identity). -/
def Scanner.SymbolVal : Scanner → List Nat × Scanner
  | ⟨s, buf, nlen, fnlen⟩ => (buf, ⟨s, [], nlen, fnlen⟩)

/-- Accessor `scanner.String` (`syrupProtoStringVal` is the identity). -/
def Scanner.StringVal : Scanner → List Nat × Scanner
  | ⟨s, buf, nlen, fnlen⟩ => (buf, ⟨s, [], nlen, fnlen⟩)

/-- Accessor `scanner.Int64`. -/
def Scanner.Int64Val : Scanner → Except ScanErr (Int × Option Int) × Scanner
  | ⟨s, buf, nlen, fnlen⟩ => (syrupProtoInt64Val buf, ⟨s, [], nlen, fnlen⟩)

/-- Accessor `scanner.Float32`. -/
def Scanner.Float32Val : Scanner → Except ScanErr Nat × Scanner
  | ⟨s, buf, nlen, fnlen⟩ => (syrupProtoFloat32Val buf, ⟨s, [], nlen, fnlen⟩)

/-- Accessor `scanner.Float64`. -/
def Scanner.Float64Val : Scanner → Except ScanErr Nat × Scanner
  | ⟨s, buf, nlen, fnlen⟩ => (syrupProtoFloat64Val buf, ⟨s, [], nlen, fnlen⟩)

/-- Go types reachable by the claims, by `reflect` kind.  A struct field is
`(declared name, optional syrup tag value, field type, exported)`.
Width `w` of `tInt`/`tUint` is 8, 16, 32 or 64 (Go `int`/`uint` are 64-bit
here).  `tBytes` is `[]byte`, `tBigInt` is `*big.Int`, `tIface` is the
empty interface, `tSet`/`tRecord` are the marker types of types.go.
`float32`/`float64` typed destinations carry no claim and are omitted. -/
inductive GoTy where
  | tBool
  | tInt (w : Nat)
  | tUint (w : Nat)
  | tString
  | tSymbol
  | tBytes
  | tBigInt
  | tIface
  | tSet
  | tRecord
  | tSlice (elem : GoTy)
  | tArray (n : Nat) (elem : GoTy)
  | tMap (key val : GoTy)
  | tPtr (elem : GoTy)
  | tStruct (fields : List (List Nat × Option (List Nat) × GoTy × Bool))

/-- Go values.  An interface cell is `vIface` (its `none` is the nil
interface), a pointer cell is `vPtr` (its `none` is the nil pointer).
Nil-ness of slices, maps, byte slices and big-int handles is tracked
because the encoder rejects nil values and `reflect.DeepEqual`
distinguishes nil from empty.  Struct values carry their field
declarations, which is how the encoder reads names and tags through
`reflect`.  Slice capacity is not part of the value (Go cannot observe it
through this codec); the decoder threads it through its growth loop. -/
inductive GoVal where
  | vBool (b : Bool)
  | vInt (w : Nat) (i : Int)
  | vUint (w : Nat) (u : Nat)
  | vFloat32 (bits : Nat)
  | vFloat64 (bits : Nat)
  | vString (s : List Nat)
  | vSymbol (s : List Nat)
  | vBytes (isNil : Bool) (bs : List Nat)
  | vBigInt (isNil : Bool) (i : Int)
  | vIface (x : Option GoVal)
  | vSet (isNil : Bool) (elems : List GoVal)
  | vRecord (label : GoVal) (valuesNil : Bool) (values : List GoVal)
  | vSlice (isNil : Bool) (elems : List GoVal)
  | vArray (elems : List GoVal)
  | vMap (isNil : Bool) (entries : List (GoVal × GoVal))
  | vPtr (x : Option GoVal)
  | vStruct (decl : List (List Nat × Option (List Nat) × GoTy × Bool)) (fieldVals : List GoVal)

mutual
/-- Structural equality on `GoTy` (Go type identity). -/
def goTyBEq : GoTy → GoTy → Bool
  | .tBool, .tBool => true
  | .tInt w, .tInt w' => w == w'
  | .tUint w, .tUint w' => w == w'
  | .tString, .tString => true
  | .tSymbol, .tSymbol => true
  | .tBytes, .tBytes => true
  | .tBigInt, .tBigInt => true
  | .tIface, .tIface => true
  | .tSet, .tSet => true
  | .tRecord, .tRecord => true
  | .tSlice e, .tSlice e' => goTyBEq e e'
  | .tArray n e, .tArray n' e' => n == n' && goTyBEq e e'
  | .tMap k v, .tMap k' v' => goTyBEq k k' && goTyBEq v v'
  | .tPtr e, .tPtr e' => goTyBEq e e'
  | .tStruct fs, .tStruct fs' => goFieldsBEq fs fs'
  | _, _ => false

/-- Structural equality on struct field declaration lists. -/
def goFieldsBEq : List (List Nat × Option (List Nat) × GoTy × Bool) →
    List (List Nat × Option (List Nat) × GoTy × Bool) → Bool
  | [], [] => true
  | (n, tg, t, ex) :: fs, (n', tg', t', ex') :: fs' =>
    n == n' && tg == tg' && goTyBEq t t' && ex == ex' && goFieldsBEq fs fs'
  | _, _ => false
end

mutual
/-- Structural equality on `GoVal`, modeling Go `==` on the key types the
decoder builds map keys from (used by `SetMapIndex`). -/
def goValBEq : GoVal → GoVal → Bool
  | .vBool b, .vBool b' => b == b'
  | .vInt w i, .vInt w' i' => w == w' && i == i'
  | .vUint w u, .vUint w' u' => w == w' && u == u'
  | .vFloat32 x, .vFloat32 x' => x == x'
  | .vFloat64 x, .vFloat64 x' => x == x'
  | .vString s, .vString s' => s == s'
  | .vSymbol s, .vSymbol s' => s == s'
  | .vBytes n bs, .vBytes n' bs' => n == n' && bs == bs'
  | .vBigInt n i, .vBigInt n' i' => n == n' && i == i'
  | .vIface none, .vIface none => true
  | .vIface (some x), .vIface (some x') => goValBEq x x'
  | .vSet n es, .vSet n' es' => n == n' && goValListBEq es es'
  | .vRecord l n vs, .vRecord l' n' vs' => goValBEq l l' && n == n' && goValListBEq vs vs'
  | .vSlice n es, .vSlice n' es' => n == n' && goValListBEq es es'
  | .vArray es, .vArray es' => goValListBEq es es'
  | .vMap n ps, .vMap n' ps' => n == n' && goValPairsBEq ps ps'
  | .vPtr none, .vPtr none => true
  | .vPtr (some x), .vPtr (some x') => goValBEq x x'
  | .vStruct d vs, .vStruct d' vs' => goFieldsBEq d d' && goValListBEq vs vs'
  | _, _ => false

/-- Elementwise equality on value lists. -/
def goValListBEq : List GoVal → List GoVal → Bool
  | [], [] => true
  | x :: xs, y :: ys => goValBEq x y && goValListBEq xs ys
  | _, _ => false

/-- Elementwise equality on key-value pair lists. -/
def goValPairsBEq : List (GoVal × GoVal) → List (GoVal × GoVal) → Bool
  | [], [] => true
  | (k, v) :: xs, (k', v') :: ys => goValBEq k k' && goValBEq v v' && goValPairsBEq xs ys
  | _, _ => false
end

mutual
/-- `reflect.Zero` of a type: the Go zero value. -/
def zeroVal : GoTy → GoVal
  | .tBool => .vBool false
  | .tInt w => .vInt w 0
  | .tUint w => .vUint w 0
  | .tString => .vString []
  | .tSymbol => .vSymbol []
  | .tBytes => .vBytes true []
  | .tBigInt => .vBigInt true 0
  | .tIface => .vIface none
  | .tSet => .vSet true []
  | .tRecord => .vRecord (.vIface none) true []
  | .tSlice _ => .vSlice true []
  | .tArray n e => .vArray (List.replicate n (zeroVal e))
  | .tMap _ _ => .vMap true []
  | .tPtr _ => .vPtr none
  | .tStruct fields => .vStruct fields (zeroFields fields)

/-- Zero values of a field declaration list, in order. -/
def zeroFields : List (List Nat × Option (List Nat) × GoTy × Bool) → List GoVal
  | [] => []
  | (_, _, t, _) :: rest => zeroVal t :: zeroFields rest
end

/-- One cached field record of `structMetadata` (type.go): declared name,
declaration index, field type. -/
structure SField where
  name : List Nat
  fieldIdx : Nat
  ty : GoTy

/-- `structMetadata` (type.go): ordered exported fields plus a
name-to-position map, modeled as an association list with Go-map
last-write-wins insertion. -/
structure StructMetadata where
  fields : List SField
  fieldNamesIndex : List (List Nat × Nat)

/-- Go map assignment on the association list: replace or append. -/
def assocPut (m : List (List Nat × Nat)) (k : List Nat) (v : Nat) : List (List Nat × Nat) :=
  match m with
  | [] => [(k, v)]
  | (k', v') :: rest => if k' = k then (k, v) :: rest else (k', v') :: assocPut rest k v

/-- Lookup of a decoded key against the metadata name map. -/
def assocFind (m : List (List Nat × Nat)) (key : List Nat) : Option Nat :=
  match m with
  | [] => none
  | (k', v') :: rest => if k' = key then some v' else assocFind rest key

/-- `buildMetadata` (type.go): walk the declared fields in order, skip
unexported ones, record `(name, declaration index, type)` and map the
declared name to the position in `fields`.  The `syrup` tag is NOT
consulted here. -/
def buildMetadata (decl : List (List Nat × Option (List Nat) × GoTy × Bool)) : StructMetadata :=
  let rec go (fs : List (List Nat × Option (List Nat) × GoTy × Bool)) (i : Nat)
      (acc : StructMetadata) : StructMetadata :=
    match fs with
    | [] => acc
    | (name, _, t, exported) :: rest =>
      if exported then
        go rest (i + 1)
          { fields := acc.fields ++ [{ name := name, fieldIdx := i, ty := t }],
            fieldNamesIndex := assocPut acc.fieldNamesIndex name acc.fields.length }
      else go rest (i + 1) acc
  go decl 0 { fields := [], fieldNamesIndex := [] }

/-- `buildCachedMetadata` (type.go): the `sync.Map` cache is semantically
transparent (`LoadOrStore` always yields the deterministic result of
`buildMetadata`), so the model is the build itself. -/
def buildCachedMetadata (decl : List (List Nat × Option (List Nat) × GoTy × Bool)) :
    StructMetadata :=
  buildMetadata decl

/-- Errors of `Encoder.Encode`: "cannot encode nil pointer" (also raised
for nil slices and maps) and "unknown type". -/
inductive EncErr where
  | nilValue
  | unknownType
deriving DecidableEq, Repr

mutual
/-- `Encoder.Encode` (shortened here to the byte production; the writer
always accepts all bytes, so the short-write branch of `Encoder.write`
is never taken).  Dispatch follows the `reflect.Kind` switch of the Go
code; note that arrays fall into the `default` branch and fail. -/
def Encode : GoVal → Except EncErr (List Nat)
  | .vString s => .ok (syrupProtoString s)
  | .vSymbol s => .ok (syrupProtoSymbol s)
  | .vInt _ i => .ok (syrupProtoInt i)
  | .vUint _ u => .ok (syrupProtoUint u)
  | .vBool b => .ok (syrupProtoBool b)
  | .vFloat32 bits => .ok (syrupProtoFloat32 bits)
  | .vFloat64 bits => .ok (syrupProtoFloat64 bits)
  | .vBytes isNil bs =>
    if isNil then .error .nilValue else .ok (syrupProtoBytes bs)
  | .vSet isNil elems =>
    if isNil then .error .nilValue
    else
      match encodeSeq elems with
      | .error e => .error e
      | .ok mid => .ok (syrupProtoSetOpen ++ mid ++ syrupProtoSetClose)
  | .vSlice isNil elems =>
    if isNil then .error .nilValue
    else
      match encodeSeq elems with
      | .error e => .error e
      | .ok mid => .ok (syrupProtoListOpen ++ mid ++ syrupProtoListClose)
  | .vBigInt isNil i =>
    if isNil then .error .nilValue else .ok (syrupProtoBigInt i)
  | .vPtr none => .error .nilValue
  | .vPtr (some x) => Encode x
  | .vIface none => .error .unknownType
  | .vIface (some x) => Encode x
  | .vMap isNil entries =>
    if isNil then .error .nilValue
    else
      match encodePairs entries with
      | .error e => .error e
      | .ok mid => .ok (syrupProtoDictOpen ++ mid ++ syrupProtoDictClose)
  | .vRecord label _ values =>
    match Encode label with
    | .error e => .error e
    | .ok lb =>
      match encodeSeq values with
      | .error e => .error e
      | .ok mid => .ok (syrupProtoRecordOpen ++ lb ++ mid ++ syrupProtoRecordClose)
  | .vStruct decl vals =>
    match encodeStructFields decl vals with
    | .error e => .error e
    | .ok mid => .ok (syrupProtoDictOpen ++ mid ++ syrupProtoDictClose)
  | .vArray _ => .error .unknownType

/-- Encode a sequence of values (list, set and record bodies). -/
def encodeSeq : List GoVal → Except EncErr (List Nat)
  | [] => .ok []
  | x :: xs =>
    match Encode x with
    | .error e => .error e
    | .ok b =>
      match encodeSeq xs with
      | .error e => .error e
      | .ok bs => .ok (b ++ bs)

/-- Encode map entries in iteration order (Go map order is unspecified;
the model fixes the entry-list order). -/
def encodePairs : List (GoVal × GoVal) → Except EncErr (List Nat)
  | [] => .ok []
  | (k, v) :: xs =>
    match Encode k with
    | .error e => .error e
    | .ok kb =>
      match Encode v with
      | .error e => .error e
      | .ok vb =>
        match encodePairs xs with
        | .error e => .error e
        | .ok bs => .ok (kb ++ vb ++ bs)

/-- Encode struct fields: skip unexported fields, write the field name
(the `syrup` tag value when present) as a syrup string, then the value. -/
def encodeStructFields : List (List Nat × Option (List Nat) × GoTy × Bool) → List GoVal →
    Except EncErr (List Nat)
  | [], _ => .ok []
  | _ :: _, [] => .ok []
  | (name, tag, _, exported) :: decl, v :: vals =>
    if exported then
      let wireName := match tag with | some t => t | none => name
      match Encode v with
      | .error e => .error e
      | .ok vb =>
        match encodeStructFields decl vals with
        | .error e => .error e
        | .ok bs => .ok (syrupProtoString wireName ++ vb ++ bs)
    else
      match encodeStructFields decl vals with
      | .error e => .error e
      | .ok bs => .ok bs
end

/-- Decoder errors.  `eof` is `io.EOF` from the reader (the only error
`Decode` converts to success); `invalidTypeErr` carries the `Value` string
and byte offset of Go's `InvalidTypeError`; `outOfFuel` marks fuel
exhaustion of the model and is unreachable for the fuel `Decode` supplies. -/
inductive DecErr where
  | eof
  | scan (e : ScanErr)
  | invalidTypeErr (value : String) (offset : Nat)
  | cannotSetField (offset : Nat)
  | unknownOp
  | outOfFuel
deriving DecidableEq, Repr

/-- Mutable decoder state: remaining reader bytes, the scanner, and the
offset counter `d.n`. -/
structure DecSt where
  input : List Nat
  sc : Scanner
  n : Nat
deriving Repr

/-- A `reflect.Value` destination: either the invalid zero `reflect.Value`
(used to discard values) or a settable cell of a type holding a value. -/
inductive RVal where
  | invalid
  | rv (ty : GoTy) (v : GoVal)

/-- Field type at declaration index `i`. -/
def fieldTyAt (decl : List (List Nat × Option (List Nat) × GoTy × Bool)) (i : Nat) : GoTy :=
  match decl.getD i ([], none, .tIface, false) with
  | (_, _, t, _) => t

/-- Go map assignment keyed by Go value equality (`SetMapIndex`). -/
def goMapPut (m : List (GoVal × GoVal)) (k v : GoVal) : List (GoVal × GoVal) :=
  match m with
  | [] => [(k, v)]
  | (k', v') :: rest => if goValBEq k' k then (k, v) :: rest else (k', v') :: goMapPut rest k v

/-- `Decoder.storeBool`. -/
def storeBool (off : Nat) (ty : GoTy) (b : Bool) : Except DecErr GoVal :=
  match ty with
  | .tBool => .ok (.vBool b)
  | .tIface => .ok (.vIface (some (.vBool b)))
  | _ => .error (.invalidTypeErr "bool" off)

/-- `Decoder.storeByteArr`: a string-kind destination takes the bytes as a
string, a byte-element slice takes them as bytes, an empty interface takes
a byte slice. -/
def storeByteArr (off : Nat) (ty : GoTy) (bs : List Nat) : Except DecErr GoVal :=
  match ty with
  | .tString => .ok (.vString bs)
  | .tSymbol => .ok (.vSymbol bs)
  | .tBytes => .ok (.vBytes false bs)
  | .tSlice (.tUint 8) => .ok (.vSlice false (bs.map (fun u => .vUint 8 u)))
  | .tIface => .ok (.vIface (some (.vBytes false bs)))
  | _ => .error (.invalidTypeErr "bytestring" off)

/-- `Decoder.storeString`. -/
def storeString (off : Nat) (ty : GoTy) (s : List Nat) : Except DecErr GoVal :=
  match ty with
  | .tString => .ok (.vString s)
  | .tSymbol => .ok (.vSymbol s)
  | .tBytes => .ok (.vBytes false s)
  | .tSlice (.tUint 8) => .ok (.vSlice false (s.map (fun u => .vUint 8 u)))
  | .tIface => .ok (.vIface (some (.vString s)))
  | _ => .error (.invalidTypeErr "string" off)

/-- `Decoder.storeSymbol`: only the `Symbol` string type, a pointer chain
to one, or an empty interface accept a symbol.  (`tBigInt` is of pointer
kind; Go recurses into the pointee struct and fails with the same
"symbol" error the model returns directly.) -/
def storeSymbol (off : Nat) (ty : GoTy) (old : GoVal) (s : List Nat) : Except DecErr GoVal :=
  match ty with
  | .tString => .error (.invalidTypeErr "symbol" off)
  | .tSymbol => .ok (.vSymbol s)
  | .tPtr t =>
    let inner := match old with
      | .vPtr (some x) => x
      | _ => zeroVal t
    match storeSymbol off t inner s with
    | .error e => .error e
    | .ok x => .ok (.vPtr (some x))
  | .tIface => .ok (.vIface (some (.vSymbol s)))
  | _ => .error (.invalidTypeErr "symbol" off)

/-- `Decoder.storeInt`: signed destinations use `OverflowInt`, unsigned
destinations reinterpret the value as `uint64` two's complement and use
`OverflowUint` against the destination width. -/
def storeInt (off : Nat) (ty : GoTy) (i : Int) : Except DecErr GoVal :=
  match ty with
  | .tInt w =>
    if i < -((2 : Int) ^ (w - 1)) || i > (2 : Int) ^ (w - 1) - 1 then
      .error (.invalidTypeErr "integer overflow" off)
    else .ok (.vInt w i)
  | .tUint w =>
    let u := (i % (18446744073709551616 : Int)).toNat
    if u ≥ 2 ^ w then .error (.invalidTypeErr "unsigned integer overflow" off)
    else .ok (.vUint w u)
  | .tIface => .ok (.vIface (some (.vInt 64 i)))
  | _ => .error (.invalidTypeErr "integer" off)

/-- `Decoder.storeBigInt`: only a `*big.Int` handle or an empty interface. -/
def storeBigInt (off : Nat) (ty : GoTy) (i : Int) : Except DecErr GoVal :=
  match ty with
  | .tBigInt => .ok (.vBigInt false i)
  | .tIface => .ok (.vIface (some (.vBigInt false i)))
  | _ => .error (.invalidTypeErr "big integer" off)

/-- `Decoder.storeFloat32` restricted to the modeled universe (float-typed
destinations are outside it; their `reflect.Float32/Float64` branch is
not represented). -/
def storeFloat32 (off : Nat) (ty : GoTy) (bits : Nat) : Except DecErr GoVal :=
  match ty with
  | .tIface => .ok (.vIface (some (.vFloat32 bits)))
  | _ => .error (.invalidTypeErr "single precision float" off)

/-- `Decoder.storeFloat64`, restricted like `storeFloat32`. -/
def storeFloat64 (off : Nat) (ty : GoTy) (bits : Nat) : Except DecErr GoVal :=
  match ty with
  | .tIface => .ok (.vIface (some (.vFloat64 bits)))
  | _ => .error (.invalidTypeErr "double precision float" off)

/-- Empty metadata, the zero `structMetadata` of the dead `default` branch
of the dictionary case of `handleOp`. -/
def emptyMetadata : StructMetadata := { fields := [], fieldNamesIndex := [] }

/-- Byte value of a `vUint 8` element, used to rebuild a `[]byte` after
the shared element loop ran over it. -/
def byteOfVal : GoVal → Nat
  | .vUint 8 u => u
  | _ => 0

/-- Call descriptors of the decoder's mutually recursive procedures.
The Go decoder is a nest of mutually recursive methods and loops; the
model runs them through the single fuel-indexed interpreter `decExec`
(one constructor per procedure), which keeps concrete evaluation linear.
The named wrapper functions below restore the Go method signatures. -/
inductive DecCall where
  | callRun (st : DecSt) (v : RVal) (last : Op)
  | callHandle (st : DecSt) (v : RVal) (oper : Op)
  | callSwitch (st : DecSt) (ity : GoTy) (ix : GoVal) (oper : Op)
  | callDict (st : DecSt) (dty : GoTy) (dx : GoVal)
  | callRecordSwitch (st : DecSt) (dty : GoTy) (dx : GoVal)
  | callRecordCore (st : DecSt) (isIface : Bool) (dx : GoVal)
  | callRecur (st : DecSt) (v : RVal) (stop : Op) (hint : String)
  | callSeq (st : DecSt) (sty : GoTy) (sx : GoVal) (stop : Op) (hint : String)
  | callRecurLoop (st : DecSt) (elemTy : GoTy) (isArray : Bool) (isNil : Bool) (cap : Nat)
      (elems : List GoVal) (i : Nat) (last : Op) (stop : Op)
  | callIfaceSlice (st : DecSt)
  | callIfaceSliceLoop (st : DecSt) (vals : List GoVal) (last : Op)
  | callIfaceDict (st : DecSt)
  | callIfaceDictLoop (st : DecSt) (entries : List (GoVal × GoVal)) (last : Op)
  | callDictMapLoop (st : DecSt) (kt : GoTy) (vt : GoTy) (entries : List (GoVal × GoVal))
      (last : Op)
  | callDictStructLoop (st : DecSt) (decl : List (List Nat × Option (List Nat) × GoTy × Bool))
      (m : StructMetadata) (vals : List GoVal) (last : Op)
  | callRecordLoop (st : DecSt) (label : GoVal) (valuesNil : Bool) (values : List GoVal)
      (last : Op)

/-- Results of the decoder procedures, one constructor per return shape. -/
inductive DecOut where
  | outRun (st : DecSt) (v : RVal) (last : Op) (err : Option DecErr)
  | outHandle (st : DecSt) (v : RVal) (stop : Bool) (err : Option DecErr)
  | outSwitch (st : DecSt) (x : GoVal) (stop : Bool) (err : Option DecErr)
  | outVal (st : DecSt) (x : GoVal) (err : Option DecErr)
  | outRVal (st : DecSt) (v : RVal) (err : Option DecErr)
  | outRecurLoop (st : DecSt) (isNil : Bool) (cap : Nat) (elems : List GoVal) (i : Nat)
      (err : Option DecErr)
  | outVals (st : DecSt) (vals : List GoVal) (err : Option DecErr)
  | outEntries (st : DecSt) (entries : List (GoVal × GoVal)) (err : Option DecErr)
  | outRecordLoop (st : DecSt) (label : GoVal) (valuesNil : Bool) (values : List GoVal)
      (err : Option DecErr)

/-- The decoder interpreter.  Each `callX` branch is the body of the Go
procedure named in the corresponding wrapper below; cross-procedure calls
recurse through `decExec` with decremented fuel, so the whole decoder is
one structural recursion on fuel.  The catch-all result alternatives after
each recursive call are dead (the called branch always returns its own
shape); they surface as an `unknownOp` error if ever taken. -/
def decExec : Nat → DecCall → DecOut
  | 0, c =>
    match c with
    | .callRun st v last => .outRun st v last (some .outOfFuel)
    | .callHandle st v _ => .outHandle st v false (some .outOfFuel)
    | .callSwitch st _ ix _ => .outSwitch st ix false (some .outOfFuel)
    | .callDict st _ dx => .outVal st dx (some .outOfFuel)
    | .callRecordSwitch st _ dx => .outVal st dx (some .outOfFuel)
    | .callRecordCore st _ dx => .outVal st dx (some .outOfFuel)
    | .callRecur st v _ _ => .outRVal st v (some .outOfFuel)
    | .callSeq st _ sx _ _ => .outVal st sx (some .outOfFuel)
    | .callRecurLoop st _ _ isNil cap elems i _ _ =>
      .outRecurLoop st isNil cap elems i (some .outOfFuel)
    | .callIfaceSlice st => .outVals st [] (some .outOfFuel)
    | .callIfaceSliceLoop st vals _ => .outVals st vals (some .outOfFuel)
    | .callIfaceDict st => .outEntries st [] (some .outOfFuel)
    | .callIfaceDictLoop st entries _ => .outEntries st entries (some .outOfFuel)
    | .callDictMapLoop st _ _ entries _ => .outEntries st entries (some .outOfFuel)
    | .callDictStructLoop st _ _ vals _ => .outVals st vals (some .outOfFuel)
    | .callRecordLoop st label valuesNil values _ =>
      .outRecordLoop st label valuesNil values (some .outOfFuel)
  | fuel + 1, c =>
    match c with
    -- the read-process-handle loop of Decoder.run: each iteration reads one
    -- byte (an empty reader yields io.EOF and the loop exits returning the
    -- previous op), feeds the scanner and dispatches the op; every scan
    -- error carries a noop op and leaves the scanner unmodified
    | .callRun st v last =>
      match st with
      | ⟨[], sc, n⟩ => .outRun ⟨[], sc, n⟩ v last (some .eof)
      | ⟨b :: rest, sc, n⟩ =>
        match sc.Process b with
        | .error e => .outRun ⟨rest, sc, n⟩ v .noop (some (.scan e))
        | .ok (sc', oper) =>
          match decExec fuel (.callHandle ⟨rest, sc', n⟩ v oper) with
          | .outHandle st3 v' stopB err =>
            match err with
            | some e => .outRun st3 v' oper (some e)
            | none =>
              if stopB then .outRun st3 v' oper none
              else decExec fuel (.callRun st3 v' oper)
          | _ => .outRun st v .noop (some .unknownOp)
    -- Decoder.handleOp: an invalid destination silently consumes the op and
    -- never stops; otherwise one pointer level is stripped, the op switch
    -- runs on the pointee and the mutated value is written back through the
    -- pointer (dereferencing a nil pointer yields Go's non-settable zero
    -- value; unreachable in the modeled flows)
    | .callHandle st v oper =>
      match v with
      | .invalid =>
        match st with
        | ⟨input, sc, n⟩ => .outHandle ⟨input, sc, n + 1⟩ .invalid false none
      | .rv (.tPtr t) (.vPtr (some x)) =>
        match decExec fuel (.callSwitch st t x oper) with
        | .outSwitch st' x' stopB err =>
          .outHandle st' (.rv (.tPtr t) (.vPtr (some x'))) stopB err
        | _ => .outHandle st v false (some .unknownOp)
      | .rv (.tPtr t) (.vPtr none) =>
        match decExec fuel (.callSwitch st t (zeroVal t) oper) with
        | .outSwitch st' x' stopB err =>
          .outHandle st' (.rv (.tPtr t) (.vPtr (some x'))) stopB err
        | _ => .outHandle st v false (some .unknownOp)
      | .rv ty x =>
        match decExec fuel (.callSwitch st ty x oper) with
        | .outSwitch st' x' stopB err => .outHandle st' (.rv ty x') stopB err
        | _ => .outHandle st v false (some .unknownOp)
    -- the op switch of Decoder.handleOp on the dereferenced destination
    -- (ity, ix); stop is true for every case except noop (Go sets it before
    -- the switch and only the noop case clears it); value ops fetch the
    -- parsed value through the matching scanner accessor and store it, and
    -- the offset counter advances after the store attempt, also on a store
    -- error
    | .callSwitch st ity ix oper =>
      match oper, st with
      | .noop, ⟨input, sc, n⟩ => .outSwitch ⟨input, sc, n + 1⟩ ix false none
      | .valBoolop, ⟨input, sc, n⟩ =>
        match sc.BoolVal with
        | (.error e, sc') => .outSwitch ⟨input, sc', n⟩ ix true (some (.scan e))
        | (.ok b, sc') =>
          match storeBool n ity b with
          | .error e => .outSwitch ⟨input, sc', n + 1⟩ ix true (some e)
          | .ok x => .outSwitch ⟨input, sc', n + 1⟩ x true none
      | .valByteArrOp, ⟨input, sc, n⟩ =>
        match sc.BytesVal with
        | (bs, sc') =>
          match storeByteArr n ity bs with
          | .error e => .outSwitch ⟨input, sc', n + 1⟩ ix true (some e)
          | .ok x => .outSwitch ⟨input, sc', n + 1⟩ x true none
      | .valSymbolOp, ⟨input, sc, n⟩ =>
        match sc.SymbolVal with
        | (s, sc') =>
          match storeSymbol n ity ix s with
          | .error e => .outSwitch ⟨input, sc', n + 1⟩ ix true (some e)
          | .ok x => .outSwitch ⟨input, sc', n + 1⟩ x true none
      | .valStringOp, ⟨input, sc, n⟩ =>
        match sc.StringVal with
        | (s, sc') =>
          match storeString n ity s with
          | .error e => .outSwitch ⟨input, sc', n + 1⟩ ix true (some e)
          | .ok x => .outSwitch ⟨input, sc', n + 1⟩ x true none
      | .valIntOp, ⟨input, sc, n⟩ =>
        match sc.Int64Val with
        | (.error e, sc') => .outSwitch ⟨input, sc', n⟩ ix true (some (.scan e))
        | (.ok (i, bi), sc') =>
          match (match bi with
            | some big => storeBigInt n ity big
            | none => storeInt n ity i) with
          | .error e => .outSwitch ⟨input, sc', n + 1⟩ ix true (some e)
          | .ok x => .outSwitch ⟨input, sc', n + 1⟩ x true none
      | .valFloat32Op, ⟨input, sc, n⟩ =>
        match sc.Float32Val with
        | (.error e, sc') => .outSwitch ⟨input, sc', n⟩ ix true (some (.scan e))
        | (.ok bits, sc') =>
          match storeFloat32 n ity bits with
          | .error e => .outSwitch ⟨input, sc', n + 1⟩ ix true (some e)
          | .ok x => .outSwitch ⟨input, sc', n + 1⟩ x true none
      | .valFloat64Op, ⟨input, sc, n⟩ =>
        match sc.Float64Val with
        | (.error e, sc') => .outSwitch ⟨input, sc', n⟩ ix true (some (.scan e))
        | (.ok bits, sc') =>
          match storeFloat64 n ity bits with
          | .error e => .outSwitch ⟨input, sc', n + 1⟩ ix true (some e)
          | .ok x => .outSwitch ⟨input, sc', n + 1⟩ x true none
      | .openListOp, st =>
        match decExec fuel (.callRecur st (.rv ity ix) .closeListOp "list") with
        | .outRVal st' (.rv _ y) err => .outSwitch st' y true err
        | .outRVal st' .invalid err => .outSwitch st' ix true err
        | _ => .outSwitch st ix true (some .unknownOp)
      | .openSetOp, st =>
        match decExec fuel (.callRecur st (.rv ity ix) .closeSetOp "set") with
        | .outRVal st' (.rv _ y) err => .outSwitch st' y true err
        | .outRVal st' .invalid err => .outSwitch st' ix true err
        | _ => .outSwitch st ix true (some .unknownOp)
      | .openDictOp, st =>
        match ity, ix with
        | .tPtr t, .vPtr (some x) =>
          match decExec fuel (.callDict st t x) with
          | .outVal st' y err => .outSwitch st' (.vPtr (some y)) true err
          | _ => .outSwitch st ix true (some .unknownOp)
        | .tPtr t, .vPtr none =>
          match decExec fuel (.callDict st t (zeroVal t)) with
          | .outVal st' y err => .outSwitch st' (.vPtr (some y)) true err
          | _ => .outSwitch st ix true (some .unknownOp)
        | _, _ =>
          match decExec fuel (.callDict st ity ix) with
          | .outVal st' y err => .outSwitch st' y true err
          | _ => .outSwitch st ix true (some .unknownOp)
      | .openRecordOp, st =>
        match ity, ix with
        | .tPtr t, .vPtr (some x) =>
          match decExec fuel (.callRecordSwitch st t x) with
          | .outVal st' y err => .outSwitch st' (.vPtr (some y)) true err
          | _ => .outSwitch st ix true (some .unknownOp)
        | .tPtr t, .vPtr none =>
          match decExec fuel (.callRecordSwitch st t (zeroVal t)) with
          | .outVal st' y err => .outSwitch st' (.vPtr (some y)) true err
          | _ => .outSwitch st ix true (some .unknownOp)
        | _, _ =>
          match decExec fuel (.callRecordSwitch st ity ix) with
          | .outVal st' y err => .outSwitch st' y true err
          | _ => .outSwitch st ix true (some .unknownOp)
      | .closeListOp, st => .outSwitch st ix true none
      | .closeDictOp, st => .outSwitch st ix true none
      | .closeSetOp, st => .outSwitch st ix true none
      | .closeRecordOp, st => .outSwitch st ix true none
    -- the dictionary case of handleOp on the twice dereferenced
    -- destination: interface shortcut, map with interface- or string-kind
    -- keys (a nil map is allocated), struct via the cached metadata, and
    -- the default branch whose InvalidTypeError is dead because the loop
    -- runs anyway with zero metadata and overwrites the error, never
    -- touching the destination
    | .callDict st dty dx =>
      match dty, dx with
      | .tIface, _ =>
        match decExec fuel (.callIfaceDict st) with
        | .outEntries st' entries none =>
          .outVal st' (.vIface (some (.vMap false entries))) none
        | .outEntries st' _ (some e) => .outVal st' dx (some e)
        | _ => .outVal st dx (some .unknownOp)
      | .tMap kt vt, .vMap _ entries =>
        match st with
        | ⟨input, sc, n⟩ =>
          match kt with
          | .tIface | .tString | .tSymbol =>
            match decExec fuel (.callDictMapLoop ⟨input, sc, n + 1⟩ kt vt entries .noop) with
            | .outEntries st2 entries' err => .outVal st2 (.vMap false entries') err
            | _ => .outVal ⟨input, sc, n⟩ dx (some .unknownOp)
          | _ => .outVal ⟨input, sc, n⟩ dx (some (.invalidTypeErr "dict" n))
      | .tStruct decl, .vStruct d' vals =>
        match st with
        | ⟨input, sc, n⟩ =>
          match decExec fuel (.callDictStructLoop ⟨input, sc, n + 1⟩ decl
              (buildCachedMetadata decl) vals .noop) with
          | .outVals st2 vals' err => .outVal st2 (.vStruct d' vals') err
          | _ => .outVal ⟨input, sc, n⟩ dx (some .unknownOp)
      | _, _ =>
        match st with
        | ⟨input, sc, n⟩ =>
          match decExec fuel (.callDictStructLoop ⟨input, sc, n + 1⟩ [] emptyMetadata []
              .noop) with
          | .outVals st2 _ err => .outVal st2 dx err
          | _ => .outVal ⟨input, sc, n⟩ dx (some .unknownOp)
    -- the record case of handleOp: only a Record or an interface accepts a
    -- record
    | .callRecordSwitch st dty dx =>
      match dty with
      | .tRecord => decExec fuel (.callRecordCore st false dx)
      | .tIface => decExec fuel (.callRecordCore st true dx)
      | _ =>
        match st with
        | ⟨input, sc, n⟩ => .outVal ⟨input, sc, n⟩ dx (some (.invalidTypeErr "record" n))
    -- label read plus value loop of the record case; the destination is set
    -- only after a clean closeRecordOp, wrapped when it is an interface
    | .callRecordCore st isIface dx =>
      match decExec fuel
          (.callRun st (.rv (.tPtr .tIface) (.vPtr (some (.vIface none)))) .noop) with
      | .outRun st' cell last' err =>
        match err with
        | some e => .outVal st' dx (some e)
        | none =>
          let label := match cell with
            | .rv _ (.vPtr (some y)) => y
            | _ => GoVal.vIface none
          match decExec fuel (.callRecordLoop st' label true [] last') with
          | .outRecordLoop st2 label2 vNil2 values2 err2 =>
            match err2 with
            | some e => .outVal st2 dx (some e)
            | none =>
              let r := GoVal.vRecord label2 vNil2 values2
              .outVal st2 (if isIface then GoVal.vIface (some r) else r) none
          | _ => .outVal st' dx (some .unknownOp)
      | _ => .outVal st dx (some .unknownOp)
    -- Decoder.recurCreatingSliceOrArray: the extra pointer dereference,
    -- then the kind dispatch of callSeq
    | .callRecur st v stop hint =>
      match v with
      | .rv (.tPtr t) (.vPtr (some x)) =>
        match decExec fuel (.callSeq st t x stop hint) with
        | .outVal st' y err => .outRVal st' (.rv (.tPtr t) (.vPtr (some y))) err
        | _ => .outRVal st v (some .unknownOp)
      | .rv (.tPtr t) (.vPtr none) =>
        match decExec fuel (.callSeq st t (zeroVal t) stop hint) with
        | .outVal st' y err => .outRVal st' (.rv (.tPtr t) (.vPtr (some y))) err
        | _ => .outRVal st v (some .unknownOp)
      | .rv ty x =>
        match decExec fuel (.callSeq st ty x stop hint) with
        | .outVal st' y err => .outRVal st' (.rv ty y) err
        | _ => .outRVal st v (some .unknownOp)
      | .invalid =>
        match st with
        | ⟨input, sc, n⟩ => .outRVal ⟨input, sc, n⟩ .invalid (some (.invalidTypeErr hint n))
    -- kind dispatch of recurCreatingSliceOrArray: interface shortcut, fixed
    -- array (zero-padded tail), slice, the Set slice type and the []byte
    -- slice type (all driven by the shared element loop), otherwise an
    -- InvalidTypeError; on success the loop overshot by one element (the
    -- close trim drops it via SetLen, an empty result is a fresh empty
    -- slice, and arrays are zero-padded from the final index)
    | .callSeq st sty sx stop hint =>
      match sty, sx with
      | .tIface, _ =>
        match decExec fuel (.callIfaceSlice st) with
        | .outVals st' vals none => .outVal st' (.vIface (some (.vSlice false vals))) none
        | .outVals st' _ (some e) => .outVal st' sx (some e)
        | _ => .outVal st sx (some .unknownOp)
      | .tArray k e, .vArray elems =>
        match st with
        | ⟨input, sc, n⟩ =>
          match decExec fuel (.callRecurLoop ⟨input, sc, n + 1⟩ e true false k elems 0
              .noop stop) with
          | .outRecurLoop st2 _ _ elems2 _ (some e') => .outVal st2 (.vArray elems2) (some e')
          | .outRecurLoop st2 _ _ elems2 iEnd none =>
            let i := iEnd - 1
            .outVal st2 (.vArray (elems2.take i ++ List.replicate (k - i) (zeroVal e))) none
          | _ => .outVal ⟨input, sc, n⟩ sx (some .unknownOp)
      | .tSlice e, .vSlice isNil elems =>
        match st with
        | ⟨input, sc, n⟩ =>
          let cap0 := if isNil then 0 else elems.length
          match decExec fuel (.callRecurLoop ⟨input, sc, n + 1⟩ e false isNil cap0 elems 0
              .noop stop) with
          | .outRecurLoop st2 isNil2 _ elems2 _ (some e') =>
            .outVal st2 (.vSlice isNil2 elems2) (some e')
          | .outRecurLoop st2 _ _ elems2 iEnd none =>
            let i := iEnd - 1
            .outVal st2 (if i = 0 then GoVal.vSlice false []
              else GoVal.vSlice false (elems2.take i)) none
          | _ => .outVal ⟨input, sc, n⟩ sx (some .unknownOp)
      | .tSet, .vSet isNil elems =>
        match st with
        | ⟨input, sc, n⟩ =>
          let cap0 := if isNil then 0 else elems.length
          match decExec fuel (.callRecurLoop ⟨input, sc, n + 1⟩ .tIface false isNil cap0
              elems 0 .noop stop) with
          | .outRecurLoop st2 isNil2 _ elems2 _ (some e') =>
            .outVal st2 (.vSet isNil2 elems2) (some e')
          | .outRecurLoop st2 _ _ elems2 iEnd none =>
            let i := iEnd - 1
            .outVal st2 (if i = 0 then GoVal.vSet false []
              else GoVal.vSet false (elems2.take i)) none
          | _ => .outVal ⟨input, sc, n⟩ sx (some .unknownOp)
      | .tBytes, .vBytes isNil bs =>
        match st with
        | ⟨input, sc, n⟩ =>
          let cap0 := if isNil then 0 else bs.length
          match decExec fuel (.callRecurLoop ⟨input, sc, n + 1⟩ (.tUint 8) false isNil cap0
              (bs.map (fun u => GoVal.vUint 8 u)) 0 .noop stop) with
          | .outRecurLoop st2 isNil2 _ elems2 _ (some e') =>
            .outVal st2 (.vBytes isNil2 (elems2.map byteOfVal)) (some e')
          | .outRecurLoop st2 _ _ elems2 iEnd none =>
            let i := iEnd - 1
            .outVal st2 (if i = 0 then GoVal.vBytes false []
              else GoVal.vBytes false ((elems2.take i).map byteOfVal)) none
          | _ => .outVal ⟨input, sc, n⟩ sx (some .unknownOp)
      | _, _ =>
        match st with
        | ⟨input, sc, n⟩ => .outVal ⟨input, sc, n⟩ sx (some (.invalidTypeErr hint n))
    -- the element loop of recurCreatingSliceOrArray: grow a slice (capacity
    -- max 4 (cap + cap / 2) via MakeSlice, which preserves contents and
    -- clears nil-ness; SetLen extends with zero values), recurse into the
    -- element slot when i < v.Len(), and into the invalid destination when
    -- a fixed array has run out of room; on an error the Go code returns
    -- without the closing trim, keeping the mutated contents
    | .callRecurLoop st elemTy isArray isNil cap elems i last stop =>
      if last = stop then .outRecurLoop st isNil cap elems i none
      else
        let (isNil1, cap1, elems1) :=
          if isArray then (isNil, cap, elems)
          else
            let (isNilG, capG) :=
              if i ≥ cap then
                let capt := cap + cap / 2
                (false, if capt < 4 then 4 else capt)
              else (isNil, cap)
            if i ≥ elems.length then
              (isNilG, capG, elems ++ List.replicate (i + 1 - elems.length) (zeroVal elemTy))
            else (isNilG, capG, elems)
        if i < elems1.length then
          match decExec fuel
              (.callRun st (.rv elemTy (elems1.getD i (zeroVal elemTy))) .noop) with
          | .outRun st' dest' last' err =>
            let x' := match dest' with
              | .rv _ y => y
              | .invalid => zeroVal elemTy
            let elems2 := elems1.set i x'
            match err with
            | some e => .outRecurLoop st' isNil1 cap1 elems2 i (some e)
            | none =>
              decExec fuel (.callRecurLoop st' elemTy isArray isNil1 cap1 elems2 (i + 1)
                last' stop)
          | _ => .outRecurLoop st isNil1 cap1 elems1 i (some .unknownOp)
        else
          match decExec fuel (.callRun st .invalid .noop) with
          | .outRun st' _ last' err =>
            match err with
            | some e => .outRecurLoop st' isNil1 cap1 elems1 i (some e)
            | none =>
              decExec fuel (.callRecurLoop st' elemTy isArray isNil1 cap1 elems1 (i + 1)
                last' stop)
          | _ => .outRecurLoop st isNil1 cap1 elems1 i (some .unknownOp)
    -- Decoder.interfaceSlice: collect elements into a fresh []interface;
    -- on success the trailing element the close iteration appended is
    -- dropped and the caller sets the interface destination; on an error
    -- the destination is left untouched
    | .callIfaceSlice st => decExec fuel (.callIfaceSliceLoop st [] .noop)
    -- the collection loop of interfaceSlice; note that it terminates only
    -- on closeListOp, also when it was entered for a set
    | .callIfaceSliceLoop st vals last =>
      if last = Op.closeListOp then .outVals st vals.dropLast none
      else
        match decExec fuel
            (.callRun st (.rv (.tPtr .tIface) (.vPtr (some (.vIface none)))) .noop) with
        | .outRun st' cell last' err =>
          match err with
          | some e => .outVals st' vals (some e)
          | none =>
            let x := match cell with
              | .rv _ (.vPtr (some y)) => y
              | _ => GoVal.vIface none
            decExec fuel (.callIfaceSliceLoop st' (vals ++ [x]) last')
        | _ => .outVals st vals (some .unknownOp)
    -- Decoder.interfaceDict: collect entries into a fresh
    -- map[interface]interface; the caller sets the destination on success
    | .callIfaceDict st => decExec fuel (.callIfaceDictLoop st [] .noop)
    -- the collection loop of interfaceDict
    | .callIfaceDictLoop st entries last =>
      if last = Op.closeDictOp then .outEntries st entries none
      else
        match decExec fuel
            (.callRun st (.rv (.tPtr .tIface) (.vPtr (some (.vIface none)))) .noop) with
        | .outRun st' kcell last' err =>
          match err with
          | some e => .outEntries st' entries (some e)
          | none =>
            let k := match kcell with
              | .rv _ (.vPtr (some y)) => y
              | _ => GoVal.vIface none
            if last' ≠ Op.closeDictOp then
              match decExec fuel
                  (.callRun st' (.rv (.tPtr .tIface) (.vPtr (some (.vIface none))))
                    .noop) with
              | .outRun st2 vcell last2 err2 =>
                match err2 with
                | some e => .outEntries st2 entries (some e)
                | none =>
                  let vi := match vcell with
                    | .rv _ (.vPtr (some y)) => y
                    | _ => GoVal.vIface none
                  decExec fuel (.callIfaceDictLoop st2 (goMapPut entries k vi) last2)
              | _ => .outEntries st' entries (some .unknownOp)
            else decExec fuel (.callIfaceDictLoop st' entries last')
        | _ => .outEntries st entries (some .unknownOp)
    -- the dictionary loop of handleOp for a map destination: a fresh key
    -- cell of the key type, then (unless the key read closed the
    -- dictionary) a fresh value cell and SetMapIndex
    | .callDictMapLoop st kt vt entries last =>
      if last = Op.closeDictOp then .outEntries st entries none
      else
        match decExec fuel (.callRun st (.rv kt (zeroVal kt)) .noop) with
        | .outRun st' kcell last' err =>
          match err with
          | some e => .outEntries st' entries (some e)
          | none =>
            if last' ≠ Op.closeDictOp then
              match decExec fuel (.callRun st' (.rv vt (zeroVal vt)) .noop) with
              | .outRun st2 vcell last2 err2 =>
                match err2 with
                | some e => .outEntries st2 entries (some e)
                | none =>
                  let kv := match kcell with
                    | .rv _ y => y
                    | .invalid => zeroVal kt
                  let vv := match vcell with
                    | .rv _ y => y
                    | .invalid => zeroVal vt
                  decExec fuel (.callDictMapLoop st2 kt vt (goMapPut entries kv vv) last2)
              | _ => .outEntries st' entries (some .unknownOp)
            else decExec fuel (.callDictMapLoop st' kt vt entries last')
        | _ => .outEntries st entries (some .unknownOp)
    -- the dictionary loop of handleOp for a struct destination: the key is
    -- read through a pointer to a string; a matching exported field
    -- (declared name only, tags are not in the metadata) is populated,
    -- allocating nil pointer fields first; an unmatched key recurses into
    -- the invalid destination (exported fields of an addressable struct
    -- are always settable, so the CanSet failure branch is unreachable)
    | .callDictStructLoop st decl m vals last =>
      if last = Op.closeDictOp then .outVals st vals none
      else
        match decExec fuel
            (.callRun st (.rv (.tPtr .tString) (.vPtr (some (.vString [])))) .noop) with
        | .outRun st1 keyRV last1 err1 =>
          match err1 with
          | some e => .outVals st1 vals (some e)
          | none =>
            let skey := match keyRV with
              | .rv _ (.vPtr (some (.vString s))) => s
              | _ => []
            if last1 ≠ Op.closeDictOp then
              match assocFind m.fieldNamesIndex skey with
              | some idx =>
                let fIdx :=
                  (m.fields.getD idx { name := [], fieldIdx := 0, ty := .tIface }).fieldIdx
                let fty := fieldTyAt decl fIdx
                match fty, vals.getD fIdx (zeroVal fty) with
                | .tPtr e, .vPtr none =>
                  match decExec fuel (.callRun st1 (.rv e (zeroVal e)) .noop) with
                  | .outRun st2 destRV last2 err2 =>
                    let y := match destRV with
                      | .rv _ z => z
                      | .invalid => zeroVal e
                    let vals2 := vals.set fIdx (.vPtr (some y))
                    match err2 with
                    | some e' => .outVals st2 vals2 (some e')
                    | none => decExec fuel (.callDictStructLoop st2 decl m vals2 last2)
                  | _ => .outVals st1 vals (some .unknownOp)
                | fty', fval =>
                  match decExec fuel (.callRun st1 (.rv fty' fval) .noop) with
                  | .outRun st2 destRV last2 err2 =>
                    let y := match destRV with
                      | .rv _ z => z
                      | .invalid => zeroVal fty'
                    let vals2 := vals.set fIdx y
                    match err2 with
                    | some e' => .outVals st2 vals2 (some e')
                    | none => decExec fuel (.callDictStructLoop st2 decl m vals2 last2)
                  | _ => .outVals st1 vals (some .unknownOp)
              | none =>
                match decExec fuel (.callRun st1 .invalid .noop) with
                | .outRun st2 _ last2 err2 =>
                  match err2 with
                  | some e' => .outVals st2 vals (some e')
                  | none => decExec fuel (.callDictStructLoop st2 decl m vals last2)
                | _ => .outVals st1 vals (some .unknownOp)
            else decExec fuel (.callDictStructLoop st1 decl m vals last1)
        | _ => .outVals st vals (some .unknownOp)
    -- the value loop of the record case of handleOp: accumulate interface
    -- cells into Values until closeRecordOp, then drop the extra element
    -- the closing iteration appended (when any was appended)
    | .callRecordLoop st label valuesNil values last =>
      if last = Op.closeRecordOp then
        if values.length > 0 then .outRecordLoop st label valuesNil values.dropLast none
        else .outRecordLoop st label valuesNil values none
      else
        match decExec fuel
            (.callRun st (.rv (.tPtr .tIface) (.vPtr (some (.vIface none)))) .noop) with
        | .outRun st' cell last' err =>
          match err with
          | some e => .outRecordLoop st' label valuesNil values (some e)
          | none =>
            let x := match cell with
              | .rv _ (.vPtr (some y)) => y
              | _ => GoVal.vIface none
            decExec fuel (.callRecordLoop st' label false (values ++ [x]) last')
        | _ => .outRecordLoop st label valuesNil values (some .unknownOp)

/-- The read-process-handle loop of `Decoder.run` (the `callRun` branch of
`decExec`). -/
def runLoop (fuel : Nat) (st : DecSt) (v : RVal) (last : Op) :
    DecSt × RVal × Op × Option DecErr :=
  match decExec fuel (.callRun st v last) with
  | .outRun st' v' last' err => (st', v', last', err)
  | _ => (st, v, last, some .unknownOp)

/-- `Decoder.handleOp` (the `callHandle` branch of `decExec`). -/
def handleOp (fuel : Nat) (st : DecSt) (v : RVal) (oper : Op) :
    DecSt × RVal × Bool × Option DecErr :=
  match decExec fuel (.callHandle st v oper) with
  | .outHandle st' v' stopB err => (st', v', stopB, err)
  | _ => (st, v, false, some .unknownOp)

/-- The op switch of `Decoder.handleOp` on the dereferenced destination
(the `callSwitch` branch of `decExec`). -/
def handleOpSwitch (fuel : Nat) (st : DecSt) (ity : GoTy) (ix : GoVal) (oper : Op) :
    DecSt × GoVal × Bool × Option DecErr :=
  match decExec fuel (.callSwitch st ity ix oper) with
  | .outSwitch st' x' stopB err => (st', x', stopB, err)
  | _ => (st, ix, false, some .unknownOp)

/-- `Decoder.recurCreatingSliceOrArray` (the `callRecur` branch). -/
def recurCreatingSliceOrArray (fuel : Nat) (st : DecSt) (v : RVal) (stop : Op)
    (hint : String) : DecSt × RVal × Option DecErr :=
  match decExec fuel (.callRecur st v stop hint) with
  | .outRVal st' v' err => (st', v', err)
  | _ => (st, v, some .unknownOp)

/-- `Decoder.interfaceSlice` (the `callIfaceSlice` branch). -/
def interfaceSlice (fuel : Nat) (st : DecSt) : DecSt × List GoVal × Option DecErr :=
  match decExec fuel (.callIfaceSlice st) with
  | .outVals st' vals err => (st', vals, err)
  | _ => (st, [], some .unknownOp)

/-- The collection loop of `interfaceSlice` (the `callIfaceSliceLoop`
branch). -/
def ifaceSliceLoop (fuel : Nat) (st : DecSt) (vals : List GoVal) (last : Op) :
    DecSt × List GoVal × Option DecErr :=
  match decExec fuel (.callIfaceSliceLoop st vals last) with
  | .outVals st' vals' err => (st', vals', err)
  | _ => (st, vals, some .unknownOp)

/-- `Decoder.interfaceDict` (the `callIfaceDict` branch). -/
def interfaceDict (fuel : Nat) (st : DecSt) : DecSt × List (GoVal × GoVal) × Option DecErr :=
  match decExec fuel (.callIfaceDict st) with
  | .outEntries st' entries err => (st', entries, err)
  | _ => (st, [], some .unknownOp)

/-- The struct-destination dictionary loop (the `callDictStructLoop`
branch). -/
def dictStructLoop (fuel : Nat) (st : DecSt)
    (decl : List (List Nat × Option (List Nat) × GoTy × Bool)) (m : StructMetadata)
    (vals : List GoVal) (last : Op) : DecSt × List GoVal × Option DecErr :=
  match decExec fuel (.callDictStructLoop st decl m vals last) with
  | .outVals st' vals' err => (st', vals', err)
  | _ => (st, vals, some .unknownOp)

/-- The element loop of `recurCreatingSliceOrArray` (the `callRecurLoop`
branch). -/
def recurLoop (fuel : Nat) (st : DecSt) (elemTy : GoTy) (isArray : Bool) (isNil : Bool)
    (cap : Nat) (elems : List GoVal) (i : Nat) (last : Op) (stop : Op) :
    DecSt × Bool × Nat × List GoVal × Nat × Option DecErr :=
  match decExec fuel (.callRecurLoop st elemTy isArray isNil cap elems i last stop) with
  | .outRecurLoop st' isNil' cap' elems' i' err => (st', isNil', cap', elems', i', err)
  | _ => (st, isNil, cap, elems, i, some .unknownOp)


/-- `Decoder.run` begins its loop with the zero op and a false stop flag. -/
def Decoder.run (fuel : Nat) (st : DecSt) (v : RVal) : DecSt × RVal × Op × Option DecErr :=
  runLoop fuel st v .noop

/-- Fuel that always suffices: each `runLoop` iteration consumes an input
byte, and every nested call strips at least one unit. -/
def decodeFuel (input : List Nat) : Nat := 8 * input.length + 64

/-- `Decoder.Decode` on a fresh decoder (`NewDecoder` with the prototype
encoding): the destination is a non-nil pointer to a cell of type `t`
holding `x` (so the `InvalidDecodeError` guard passes), `run` is invoked,
and an `io.EOF` result is converted to success.  Returns the full final
state, the final cell value and the reported error. -/
def DecodeSt (input : List Nat) (t : GoTy) (x : GoVal) : DecSt × GoVal × Option DecErr :=
  let st : DecSt := { input := input, sc := Scanner.fresh, n := 0 }
  let (st', v', _, err) := Decoder.run (decodeFuel input) st (.rv (.tPtr t) (.vPtr (some x)))
  let res := match v' with
    | .rv _ (.vPtr (some y)) => y
    | _ => x
  let err' := match err with
    | some .eof => none
    | e => e
  (st', res, err')

/-- `Decoder.Decode`, observing only the decoded value and the error. -/
def Decode (input : List Nat) (t : GoTy) (x : GoVal) : GoVal × Option DecErr :=
  let (_, res, err) := DecodeSt input t x
  (res, err)

/-! ## Specification-side helper definitions -/

/-- The value op a length-determined scan state emits when its payload
countdown reaches zero. -/
def lengthKindOp : ScanState → Op
  | .scanString => .valStringOp
  | .scanSymbol => .valSymbolOp
  | .scanByteArr => .valByteArrOp
  | _ => .noop

/-- A struct declaration with every syrup tag erased. -/
def stripTags : List (List Nat × Option (List Nat) × GoTy × Bool) →
    List (List Nat × Option (List Nat) × GoTy × Bool)
  | [] => []
  | (name, _, t, exported) :: rest => (name, none, t, exported) :: stripTags rest

/-- The number a run of decimal digit bytes denotes, expressed through
Mathlib's little-endian digit valuation on the reversed run. -/
def digitRunVal (ds : List Nat) : Nat :=
  Nat.ofDigits 10 ((ds.map (fun d => d - 48)).reverse)

/-- The integer a signed decimal token denotes. -/
def intDenote (neg : Bool) (ds : List Nat) : Int :=
  if neg then -(digitRunVal ds : Int) else (digitRunVal ds : Int)

/-- Store the strings `ss` into consecutive slots of `elems` from `i`. -/
def setStrings : List GoVal → Nat → List (List Nat) → List GoVal
  | elems, _, [] => elems
  | elems, i, s :: rest => setStrings (elems.set i (.vString s)) (i + 1) rest

/-! ## Supporting lemmas -/

/-- One payload byte of a length-determined token: always buffered, state
unchanged until the countdown hits zero, at which point the value op fires
and the scanner returns to `scanFindToken`. -/
theorem process_payload (s0 : ScanState) (buf : List Nat) (nlen fnlen b : Nat)
    (hs : s0 = .scanString ∨ s0 = .scanSymbol ∨ s0 = .scanByteArr) (hn : 1 ≤ nlen) :
    Scanner.Process ⟨s0, buf, nlen, fnlen⟩ b =
      .ok (⟨if nlen = 1 then .scanFindToken else s0, buf ++ [b], nlen - 1, fnlen⟩,
        if nlen = 1 then lengthKindOp s0 else .noop) := by
  have h0 : ¬ nlen = 0 := by omega
  rcases hs with h | h | h <;> subst h <;> by_cases h1 : nlen = 1
  all_goals first
  | (subst h1; simp [Scanner.Process, lengthDeterminedStep, lengthKindOp])
  | (have h2 : ¬ (nlen - 1 = 0) := by omega
     simp [Scanner.Process, lengthDeterminedStep, lengthKindOp, h0, h1, h2])

theorem buildMetadataGo_stripTags
    (fs : List (List Nat × Option (List Nat) × GoTy × Bool)) :
    ∀ (i : Nat) (acc : StructMetadata),
      buildMetadata.go (stripTags fs) i acc = buildMetadata.go fs i acc := by
  induction fs with
  | nil => intro i acc; rfl
  | cons f rest ih =>
    intro i acc
    obtain ⟨name, tag, t, exported⟩ := f
    by_cases he : exported = true <;>
      simp [stripTags, buildMetadata.go, he, ih]

theorem digits_foldl_eq (ds : List Nat) :
    ∀ a : Nat, ds.foldl (fun acc b => acc * 10 + (b - 48)) a =
      a * 10 ^ ds.length + digitRunVal ds := by
  induction ds with
  | nil => intro a; simp [digitRunVal, Nat.ofDigits]
  | cons d rest ih =>
    intro a
    rw [List.foldl_cons, ih]
    unfold digitRunVal
    simp only [List.map_cons, List.reverse_cons, Nat.ofDigits_append, List.length_reverse,
      List.length_map, List.length_cons, Nat.ofDigits_cons, Nat.ofDigits_nil]
    ring

/-- On a nonempty all-digit run the scanner's numeric parse succeeds and
computes the denoted number. -/
theorem decDigitsVal_denotes (ds : List Nat) (h1 : ds ≠ [])
    (h2 : ∀ d ∈ ds, isDigitByte d) :
    decDigitsVal ds = some (digitRunVal ds) := by
  unfold decDigitsVal
  rw [if_neg, digits_foldl_eq ds 0]
  · simp
  · simp [h1]
    intro b hb
    exact h2 b hb

theorem natDecimalAux_spec (fuel : Nat) :
    ∀ n : Nat, n < fuel →
      natDecimalAux fuel n ≠ [] ∧
      (∀ d ∈ natDecimalAux fuel n, isDigitByte d) ∧
      (∀ a : Nat, (natDecimalAux fuel n).foldl (fun acc b => acc * 10 + (b - 48)) a =
        a * 10 ^ (natDecimalAux fuel n).length + n) := by
  induction fuel with
  | zero => intro n hn; omega
  | succ fuel ih =>
    intro n hn
    by_cases h : n < 10
    · refine ⟨by simp [natDecimalAux, h], ?_, ?_⟩
      · intro d hd
        simp [natDecimalAux, h] at hd
        subst hd
        simp [isDigitByte]
        omega
      · intro a
        simp [natDecimalAux, h]
    · have hlt : n / 10 < n := Nat.div_lt_self (by omega) (by omega)
      have hn' : n / 10 < fuel := by omega
      obtain ⟨hne, hdig, hfold⟩ := ih (n / 10) hn'
      refine ⟨by simp [natDecimalAux, h], ?_, ?_⟩
      · intro d hd
        simp only [natDecimalAux, if_neg h, List.mem_append, List.mem_singleton] at hd
        rcases hd with hd | hd
        · exact hdig d hd
        · subst hd
          simp [isDigitByte]
          omega
      · intro a
        simp only [natDecimalAux, if_neg h, List.foldl_append, List.length_append,
          List.foldl_cons, List.foldl_nil, List.length_cons, List.length_nil]
        rw [hfold a]
        have hmod : 48 + n % 10 - 48 = n % 10 := by omega
        rw [hmod]
        have hdm : n / 10 * 10 + n % 10 = n := by omega
        calc (a * 10 ^ (natDecimalAux fuel (n / 10)).length + n / 10) * 10 + n % 10
            = a * 10 ^ (natDecimalAux fuel (n / 10)).length * 10 +
              (n / 10 * 10 + n % 10) := by ring
          _ = a * 10 ^ ((natDecimalAux fuel (n / 10)).length + (0 + 1)) + n := by
              rw [hdm]; ring

/-- The decimal formatter and the scanner's numeric parse round-trip. -/
theorem decDigitsVal_natDecimal (m : Nat) : decDigitsVal (natDecimal m) = some m := by
  obtain ⟨hne, hdig, hfold⟩ := natDecimalAux_spec (m + 1) m (by omega)
  unfold decDigitsVal
  rw [if_neg]
  · rw [show natDecimal m = natDecimalAux (m + 1) m from rfl, hfold 0]
    simp
  · simp [natDecimal, hne]
    intro b hb
    exact hdig b hb

theorem natDecimal_digits (m : Nat) : ∀ d ∈ natDecimal m, isDigitByte d :=
  (natDecimalAux_spec (m + 1) m (by omega)).2.1

theorem natDecimal_ne_nil (m : Nat) : natDecimal m ≠ [] :=
  (natDecimalAux_spec (m + 1) m (by omega)).1

theorem isSpaceByte_eq_false_of_digit {d : Nat} (h : isDigitByte d = true) :
    isSpaceByte d = false := by
  simp only [isDigitByte, Bool.and_eq_true, decide_eq_true_eq] at h
  simp only [isSpaceByte, Bool.or_eq_false_iff, decide_eq_false_iff_not]
  omega

/-- `scanFindToken` on a digit: enter `scanTokenLen`, buffer the digit. -/
theorem process_findToken_digit (buf : List Nat) (nl fn d : Nat)
    (hd : isDigitByte d = true) :
    Scanner.Process ⟨.scanFindToken, buf, nl, fn⟩ d =
      .ok (⟨.scanTokenLen, buf ++ [d], nl, fn⟩, .noop) := by
  simp [Scanner.Process, syrupProtoMustFindToken, hd, isSpaceByte_eq_false_of_digit hd]

/-- `scanTokenLen` on a digit: stay, buffer the digit. -/
theorem process_tokenLen_digit (buf : List Nat) (nl fn d : Nat)
    (hd : isDigitByte d = true) :
    Scanner.Process ⟨.scanTokenLen, buf, nl, fn⟩ d =
      .ok (⟨.scanTokenLen, buf ++ [d], nl, fn⟩, .noop) := by
  simp [Scanner.Process, syrupProtoScanTokenLen, hd]

/-- `scanTokenLen` on `"` with a parseable nonzero length: the `parseLen`
handoff clears the buffer and arms the payload countdown. -/
theorem process_tokenLen_quote (buf : List Nat) (nl fn L : Nat)
    (hbuf : decDigitsVal buf = some L) (hL : L < 18446744073709551616)
    (hL0 : L ≠ 0) :
    Scanner.Process ⟨.scanTokenLen, buf, nl, fn⟩ 34 =
      .ok (⟨.scanString, [], L, fn⟩, .noop) := by
  simp [Scanner.Process, syrupProtoScanTokenLen, isDigitByte, syrupProtoParsedLen,
    goParseUint64, hbuf, hL, hL0]

/-- `scanFindToken` on `]`: emit `closeListOp`, nothing buffered. -/
theorem process_findToken_close (buf : List Nat) (nl fn : Nat) :
    Scanner.Process ⟨.scanFindToken, buf, nl, fn⟩ 93 =
      .ok (⟨.scanFindToken, buf, nl, fn⟩, .closeListOp) := by
  simp [Scanner.Process, syrupProtoMustFindToken, isSpaceByte, isDigitByte]

/-- `scanFindToken` on `[`: emit `openListOp`, nothing buffered. -/
theorem process_findToken_open (buf : List Nat) (nl fn : Nat) :
    Scanner.Process ⟨.scanFindToken, buf, nl, fn⟩ 91 =
      .ok (⟨.scanFindToken, buf, nl, fn⟩, .openListOp) := by
  simp [Scanner.Process, syrupProtoMustFindToken, isSpaceByte, isDigitByte]

/-- One run-loop iteration from `scanFindToken` on a digit byte. -/
theorem decStep_findToken_digit (fuel d : Nat) (rest buf : List Nat) (nl fn n : Nat)
    (x : GoVal) (last : Op) (hd : isDigitByte d = true) :
    decExec (fuel + 3) (.callRun ⟨d :: rest, ⟨.scanFindToken, buf, nl, fn⟩, n⟩
        (.rv .tString x) last) =
      decExec (fuel + 2) (.callRun ⟨rest, ⟨.scanTokenLen, buf ++ [d], nl, fn⟩, n + 1⟩
        (.rv .tString x) .noop) := by
  simp [decExec, process_findToken_digit buf nl fn d hd]

/-- One run-loop iteration from `scanTokenLen` on a digit byte. -/
theorem decStep_tokenLen_digit (fuel d : Nat) (rest buf : List Nat) (nl fn n : Nat)
    (x : GoVal) (last : Op) (hd : isDigitByte d = true) :
    decExec (fuel + 3) (.callRun ⟨d :: rest, ⟨.scanTokenLen, buf, nl, fn⟩, n⟩
        (.rv .tString x) last) =
      decExec (fuel + 2) (.callRun ⟨rest, ⟨.scanTokenLen, buf ++ [d], nl, fn⟩, n + 1⟩
        (.rv .tString x) .noop) := by
  simp [decExec, process_tokenLen_digit buf nl fn d hd]

/-- One run-loop iteration from `scanTokenLen` on the `"` handoff. -/
theorem decStep_tokenLen_quote (fuel : Nat) (rest buf : List Nat) (nl fn n L : Nat)
    (x : GoVal) (last : Op) (hbuf : decDigitsVal buf = some L)
    (hL : L < 18446744073709551616) (hL0 : L ≠ 0) :
    decExec (fuel + 3) (.callRun ⟨34 :: rest, ⟨.scanTokenLen, buf, nl, fn⟩, n⟩
        (.rv .tString x) last) =
      decExec (fuel + 2) (.callRun ⟨rest, ⟨.scanString, [], L, fn⟩, n + 1⟩
        (.rv .tString x) .noop) := by
  simp [decExec, process_tokenLen_quote buf nl fn L hbuf hL hL0]

/-- One run-loop iteration on a non-final payload byte. -/
theorem decStep_payload_mid (fuel b : Nat) (rest buf : List Nat) (nlen fn n : Nat)
    (x : GoVal) (last : Op) (hn : 2 ≤ nlen) :
    decExec (fuel + 3) (.callRun ⟨b :: rest, ⟨.scanString, buf, nlen, fn⟩, n⟩
        (.rv .tString x) last) =
      decExec (fuel + 2) (.callRun ⟨rest, ⟨.scanString, buf ++ [b], nlen - 1, fn⟩, n + 1⟩
        (.rv .tString x) .noop) := by
  have hp := process_payload .scanString buf nlen fn b (Or.inl rfl) (by omega)
  rw [if_neg (by omega), if_neg (by omega)] at hp
  simp [decExec, hp]

/-- The final payload byte of a string token: the value op fires and the
string is stored into the `tString` destination. -/
theorem decStep_payload_last (fuel b : Nat) (rest buf : List Nat) (fn n : Nat)
    (x : GoVal) (last : Op) :
    decExec (fuel + 3) (.callRun ⟨b :: rest, ⟨.scanString, buf, 1, fn⟩, n⟩
        (.rv .tString x) last) =
      .outRun ⟨rest, ⟨.scanFindToken, [], 0, fn⟩, n + 1⟩
        (.rv .tString (.vString (buf ++ [b]))) .valStringOp none := by
  have hp := process_payload .scanString buf 1 fn b (Or.inl rfl) (by omega)
  rw [if_pos rfl, if_pos rfl] at hp
  simp [decExec, hp, lengthKindOp, Scanner.StringVal, storeString]

/-- A run of digit bytes in `scanTokenLen`: all buffered, `noop` ops. -/
theorem decStep_tokenLen_run (ds : List Nat) :
    ∀ (fuel : Nat) (rest buf : List Nat) (nl fn n : Nat) (x : GoVal),
      (∀ d ∈ ds, isDigitByte d = true) →
      decExec (fuel + ds.length + 2)
          (.callRun ⟨ds ++ rest, ⟨.scanTokenLen, buf, nl, fn⟩, n⟩ (.rv .tString x) .noop) =
        decExec (fuel + 2)
          (.callRun ⟨rest, ⟨.scanTokenLen, buf ++ ds, nl, fn⟩, n + ds.length⟩
            (.rv .tString x) .noop) := by
  induction ds with
  | nil => intro fuel rest buf nl fn n x hds; simp
  | cons d ds ih =>
    intro fuel rest buf nl fn n x hds
    have hd := hds d (List.mem_cons_self d ds)
    have hds' : ∀ e ∈ ds, isDigitByte e = true := fun e he => hds e (List.mem_cons_of_mem d he)
    have e1 : buf ++ d :: ds = (buf ++ [d]) ++ ds := by simp
    have e2 : n + (d :: ds).length = (n + 1) + ds.length := by simp [List.length_cons]; omega
    rw [e1, e2]
    rw [show fuel + (d :: ds).length + 2 = (fuel + ds.length) + 3 from by
      simp [List.length_cons]; omega]
    rw [List.cons_append]
    rw [decStep_tokenLen_digit (fuel + ds.length) d (ds ++ rest) buf nl fn n x .noop hd]
    exact ih fuel rest (buf ++ [d]) nl fn (n + 1) x hds'

/-- The payload bytes of a string token, driven to the value op. -/
theorem decStep_payload_run (bs : List Nat) :
    ∀ (fuel : Nat) (rest buf : List Nat) (fn n : Nat) (x : GoVal) (last : Op),
      bs ≠ [] →
      decExec (fuel + bs.length + 2)
          (.callRun ⟨bs ++ rest, ⟨.scanString, buf, bs.length, fn⟩, n⟩ (.rv .tString x) last) =
        .outRun ⟨rest, ⟨.scanFindToken, [], 0, fn⟩, n + bs.length⟩
          (.rv .tString (.vString (buf ++ bs))) .valStringOp none := by
  induction bs with
  | nil => intro _ _ _ _ _ _ _ h; exact absurd rfl h
  | cons b bs ih =>
    intro fuel rest buf fn n x last h
    cases bs with
    | nil =>
      rw [show fuel + ([b] : List Nat).length + 2 = fuel + 3 from by simp]
      simp only [List.cons_append, List.nil_append, List.length_cons, List.length_nil]
      rw [decStep_payload_last fuel b rest buf fn n x last]
    | cons b2 bs2 =>
      rw [show fuel + (b :: b2 :: bs2).length + 2 = (fuel + (b2 :: bs2).length) + 3 from by
        simp [List.length_cons]; omega]
      rw [List.cons_append]
      rw [decStep_payload_mid (fuel + (b2 :: bs2).length) b ((b2 :: bs2) ++ rest) buf
        ((b :: b2 :: bs2).length) fn n x last (by simp)]
      rw [show ((b :: b2 :: bs2).length) - 1 = (b2 :: bs2).length from by
        simp [List.length_cons]]
      rw [show (fuel + (b2 :: bs2).length) + 2 = fuel + (b2 :: bs2).length + 2 from rfl]
      rw [ih fuel rest (buf ++ [b]) fn (n + 1) x .noop (by simp)]
      simp only [List.append_assoc, List.singleton_append, List.length_cons]
      congr 2
      omega

/-- A `]` at an element destination: the close op stops the run without
touching the destination or the offset. -/
theorem decStep_close_element (fuel : Nat) (rest buf : List Nat) (nl fn n : Nat)
    (x : GoVal) (last : Op) :
    decExec (fuel + 3) (.callRun ⟨93 :: rest, ⟨.scanFindToken, buf, nl, fn⟩, n⟩
        (.rv .tString x) last) =
      .outRun ⟨rest, ⟨.scanFindToken, buf, nl, fn⟩, n⟩ (.rv .tString x)
        .closeListOp none := by
  simp [decExec, process_findToken_close buf nl fn]

/-- A `]` at the invalid destination: the op is swallowed (offset still
advances) and the following empty reader yields `io.EOF`. -/
theorem decStep_invalid_close (fuel : Nat) (buf : List Nat) (nl fn n : Nat) (last : Op) :
    decExec (fuel + 3) (.callRun ⟨[93], ⟨.scanFindToken, buf, nl, fn⟩, n⟩ .invalid last) =
      .outRun ⟨[], ⟨.scanFindToken, buf, nl, fn⟩, n + 1⟩ .invalid .closeListOp
        (some .eof) := by
  simp [decExec, process_findToken_close buf nl fn]

/-- One whole length-prefixed string element, read from a clean scanner
into a `tString` destination. -/
theorem decStep_string_element (s : List Nat) (fuel : Nat) (rest : List Nat) (fn n : Nat)
    (x : GoVal) (last : Op) (h1 : s ≠ []) (h2 : s.length < 18446744073709551616) :
    decExec (fuel + (syrupProtoString s).length + 2)
        (.callRun ⟨syrupProtoString s ++ rest, ⟨.scanFindToken, [], 0, fn⟩, n⟩
          (.rv .tString x) last) =
      .outRun ⟨rest, ⟨.scanFindToken, [], 0, fn⟩, n + (syrupProtoString s).length⟩
        (.rv .tString (.vString s)) .valStringOp none := by
  obtain ⟨d, ds, hds⟩ : ∃ d ds, natDecimal s.length = d :: ds := by
    cases hnd : natDecimal s.length with
    | nil => exact absurd hnd (natDecimal_ne_nil _)
    | cons d ds => exact ⟨d, ds, rfl⟩
  have hdigits := natDecimal_digits s.length
  rw [hds] at hdigits
  have hlen : (syrupProtoString s).length = ds.length + 2 + s.length := by
    simp [syrupProtoString, hds, List.length_cons]
    omega
  have hinput : syrupProtoString s ++ rest = d :: (ds ++ ([34] ++ (s ++ rest))) := by
    simp [syrupProtoString, hds, List.append_assoc]
  rw [hinput]
  rw [show fuel + (syrupProtoString s).length + 2 = (fuel + ds.length + (1 + s.length)) + 3
    from by rw [hlen]; omega]
  rw [decStep_findToken_digit (fuel + ds.length + (1 + s.length)) d
    (ds ++ ([34] ++ (s ++ rest))) [] 0 fn n x last (hdigits d (List.mem_cons_self d ds))]
  rw [show (fuel + ds.length + (1 + s.length)) + 2 = (fuel + (1 + s.length)) + ds.length + 2
    from by omega]
  rw [decStep_tokenLen_run ds (fuel + (1 + s.length)) ([34] ++ (s ++ rest)) ([] ++ [d]) 0 fn
    (n + 1) x (fun e he => hdigits e (List.mem_cons_of_mem d he))]
  have hb : (([] : List Nat) ++ [d]) ++ ds = natDecimal s.length := by simp [hds]
  rw [hb]
  rw [show (fuel + (1 + s.length)) + 2 = (fuel + s.length) + 3 from by omega]
  rw [List.singleton_append]
  rw [decStep_tokenLen_quote (fuel + s.length) (s ++ rest) (natDecimal s.length) 0 fn
    ((n + 1) + ds.length) s.length x .noop (decDigitsVal_natDecimal s.length) h2
    (by have := List.length_pos.mpr h1; omega)]
  rw [show (fuel + s.length) + 2 = fuel + s.length + 2 from rfl]
  rw [decStep_payload_run s fuel rest [] fn (((n + 1) + ds.length) + 1) x .noop h1]
  have harith : n + 1 + ds.length + 1 + s.length = n + (syrupProtoString s).length := by
    rw [hlen]; omega
  simp only [List.nil_append]
  rw [harith]

theorem list_set_getD_self (l : List GoVal) :
    ∀ (i : Nat) (d : GoVal), i < l.length → l.set i (l.getD i d) = l := by
  induction l with
  | nil => intro i d h; simp at h
  | cons a l ih =>
    intro i d h
    cases i with
    | zero => simp
    | succ i =>
      simp only [List.set_cons_succ, List.getD_cons_succ]
      rw [ih i d (by simpa using h)]

/-- One array-loop iteration whose element read succeeds. -/
theorem decStep_loop_element (fuel : Nat) (st : DecSt) (k i : Nat) (elems : List GoVal)
    (last : Op) (st' : DecSt) (y : GoVal) (last' : Op)
    (hlast : last ≠ Op.closeListOp) (hi : i < elems.length)
    (h : decExec fuel (.callRun st (.rv .tString (elems.getD i (zeroVal .tString)))
        .noop) = .outRun st' (.rv .tString y) last' none) :
    decExec (fuel + 1) (.callRecurLoop st .tString true false k elems i last .closeListOp) =
      decExec fuel
        (.callRecurLoop st' .tString true false k (elems.set i y) (i + 1) last'
          .closeListOp) := by
  simp only [decExec, if_true, if_neg hlast, if_pos hi, h]

/-- The array loop stops as soon as the previous op was the close. -/
theorem decStep_loop_stop (fuel : Nat) (st : DecSt) (k i : Nat) (elems : List GoVal) :
    decExec (fuel + 1) (.callRecurLoop st .tString true false k elems i .closeListOp
        .closeListOp) = .outRecurLoop st false k elems i none := by
  simp only [decExec, if_true]

/-- One array-loop iteration past the last slot whose skip run errors. -/
theorem decStep_loop_overflow (fuel : Nat) (st : DecSt) (k i : Nat) (elems : List GoVal)
    (last : Op) (st' : DecSt) (last' : Op) (e : DecErr)
    (hlast : last ≠ Op.closeListOp) (hi : ¬ i < elems.length)
    (h : decExec fuel (.callRun st .invalid .noop) =
      .outRun st' .invalid last' (some e)) :
    decExec (fuel + 1) (.callRecurLoop st .tString true false k elems i last .closeListOp) =
      .outRecurLoop st' false k elems i (some e) := by
  simp only [decExec, if_true, if_neg hlast, if_neg hi, h]

/-- The element loop over a wire list of string elements into a fixed
array of strings: with `i + ss.length ≤ k` every element is stored in
order; a strictly shorter list sees the close op at an element slot (no
offset bump, loop index overshoots by one), while an exactly-filling list
drives the skip run into `io.EOF` with the offset past the close. -/
theorem decStep_array_loop (ss : List (List Nat)) :
    ∀ (fuel k i : Nat) (elems : List GoVal) (n fn : Nat) (last : Op),
      (∀ s ∈ ss, s ≠ [] ∧ s.length < 18446744073709551616) →
      i + ss.length ≤ k → elems.length = k → last ≠ Op.closeListOp →
      decExec (fuel + ((ss.map syrupProtoString).flatten).length + ss.length + 4)
          (.callRecurLoop ⟨(ss.map syrupProtoString).flatten ++ [93],
              ⟨.scanFindToken, [], 0, fn⟩, n⟩ .tString true false k elems i last
            .closeListOp) =
        (if i + ss.length < k then
          .outRecurLoop ⟨[], ⟨.scanFindToken, [], 0, fn⟩,
              n + ((ss.map syrupProtoString).flatten).length⟩ false k
            (setStrings elems i ss) (i + ss.length + 1) none
        else
          .outRecurLoop ⟨[], ⟨.scanFindToken, [], 0, fn⟩,
              n + ((ss.map syrupProtoString).flatten).length + 1⟩ false k
            (setStrings elems i ss) (i + ss.length) (some .eof)) := by
  induction ss with
  | nil =>
    intro fuel k i elems n fn last hall hik hlen hlast
    simp only [List.map_nil, List.flatten_nil, List.length_nil, List.nil_append,
      Nat.add_zero, setStrings]
    by_cases hik2 : i < k
    · rw [if_pos hik2]
      have hilt : i < elems.length := by omega
      rw [show fuel + 4 = (fuel + 3) + 1 from by omega]
      rw [decStep_loop_element (fuel + 3) ⟨[93], ⟨.scanFindToken, [], 0, fn⟩, n⟩ k i elems
        last ⟨[], ⟨.scanFindToken, [], 0, fn⟩, n⟩ (elems.getD i (zeroVal .tString))
        .closeListOp hlast hilt
        (decStep_close_element fuel [] [] 0 fn n (elems.getD i (zeroVal .tString)) .noop)]
      rw [show fuel + 3 = (fuel + 2) + 1 from by omega]
      rw [decStep_loop_stop (fuel + 2) ⟨[], ⟨.scanFindToken, [], 0, fn⟩, n⟩ k (i + 1)
        (elems.set i (elems.getD i (zeroVal .tString)))]
      rw [list_set_getD_self elems i (zeroVal .tString) hilt]
    · rw [if_neg hik2]
      have hnot : ¬ i < elems.length := by omega
      rw [show fuel + 4 = (fuel + 3) + 1 from by omega]
      rw [decStep_loop_overflow (fuel + 3) ⟨[93], ⟨.scanFindToken, [], 0, fn⟩, n⟩ k i elems
        last ⟨[], ⟨.scanFindToken, [], 0, fn⟩, n + 1⟩ .closeListOp .eof hlast hnot
        (decStep_invalid_close fuel [] 0 fn n .noop)]
  | cons s rest ih =>
    intro fuel k i elems n fn last hall hik hlen hlast
    obtain ⟨hs1, hs2⟩ := hall s (List.mem_cons_self s rest)
    have hall' : ∀ t ∈ rest, t ≠ [] ∧ t.length < 18446744073709551616 :=
      fun t ht => hall t (List.mem_cons_of_mem s ht)
    simp only [List.length_cons] at hik
    simp only [List.map_cons, List.flatten_cons, List.length_cons, List.length_append]
    rw [List.append_assoc]
    set Ls := (syrupProtoString s).length with hLs
    set LB := ((rest.map syrupProtoString).flatten).length with hLB
    have hilt : i < elems.length := by omega
    rw [show fuel + (Ls + LB) + (rest.length + 1) + 4 =
      (fuel + Ls + LB + rest.length + 4) + 1 from by omega]
    rw [decStep_loop_element (fuel + Ls + LB + rest.length + 4)
      ⟨syrupProtoString s ++ ((rest.map syrupProtoString).flatten ++ [93]),
        ⟨.scanFindToken, [], 0, fn⟩, n⟩ k i elems last
      ⟨(rest.map syrupProtoString).flatten ++ [93], ⟨.scanFindToken, [], 0, fn⟩, n + Ls⟩
      (.vString s) .valStringOp hlast hilt
      (by
        rw [show fuel + Ls + LB + rest.length + 4 =
          (fuel + LB + rest.length + 2) + Ls + 2 from by omega]
        exact decStep_string_element s (fuel + LB + rest.length + 2)
          ((rest.map syrupProtoString).flatten ++ [93]) fn n
          (elems.getD i (zeroVal .tString)) .noop hs1 hs2)]
    rw [show fuel + Ls + LB + rest.length + 4 =
      (fuel + Ls) + LB + rest.length + 4 from by omega]
    rw [ih (fuel + Ls) k (i + 1) (elems.set i (.vString s)) (n + Ls) fn .valStringOp hall'
      (by omega) (by simp [hlen]) (by simp)]
    have hc : (i + 1) + rest.length = i + (rest.length + 1) := by omega
    have hn : (n + Ls) + LB = n + (Ls + LB) := by omega
    rw [hc, hn]
    simp only [setStrings]

/-- The opening `[` of a list decoded into a pointer-to-array destination
hands off to the element loop; its outcome is wrapped back through the
seq, recur, op-switch and pointer layers (with the close trim on
success). -/
theorem decStep_open_array (fuel : Nat) (body rest2 : List Nat) (fn n m k iEnd : Nat)
    (elems elems2 : List GoVal) (err2 : Option DecErr) (last : Op)
    (h : decExec fuel (.callRecurLoop ⟨body, ⟨.scanFindToken, [], 0, fn⟩, n + 1⟩ .tString
        true false k elems 0 .noop .closeListOp) =
      .outRecurLoop ⟨rest2, ⟨.scanFindToken, [], 0, fn⟩, m⟩ false k elems2 iEnd err2) :
    decExec (fuel + 5) (.callRun ⟨91 :: body, ⟨.scanFindToken, [], 0, fn⟩, n⟩
        (.rv (.tPtr (.tArray k .tString)) (.vPtr (some (.vArray elems)))) last) =
      (match err2 with
       | some e =>
         .outRun ⟨rest2, ⟨.scanFindToken, [], 0, fn⟩, m⟩
           (.rv (.tPtr (.tArray k .tString)) (.vPtr (some (.vArray elems2)))) .openListOp
           (some e)
       | none =>
         .outRun ⟨rest2, ⟨.scanFindToken, [], 0, fn⟩, m⟩
           (.rv (.tPtr (.tArray k .tString)) (.vPtr (some (.vArray (elems2.take (iEnd - 1)
             ++ List.replicate (k - (iEnd - 1)) (zeroVal .tString)))))) .openListOp
           none) := by
  cases err2 with
  | none => simp only [decExec, process_findToken_open, h, if_true]
  | some e => simp only [decExec, process_findToken_open, h, if_true]

/-- Storing strings into consecutive zero slots appends them in order. -/
theorem setStrings_fill (ss : List (List Nat)) :
    ∀ (pre : List GoVal) (m : Nat), ss.length ≤ m →
      setStrings (pre ++ List.replicate m (GoVal.vString [])) pre.length ss =
        pre ++ ss.map (fun s => GoVal.vString s) ++
          List.replicate (m - ss.length) (GoVal.vString []) := by
  induction ss with
  | nil => intro pre m h; simp [setStrings]
  | cons s rest ih =>
    intro pre m h
    simp only [List.length_cons] at h
    cases m with
    | zero => omega
    | succ m =>
      simp only [setStrings]
      have hrep : List.replicate (m + 1) (GoVal.vString []) =
          GoVal.vString [] :: List.replicate m (GoVal.vString []) := rfl
      rw [hrep]
      have hset : (pre ++ GoVal.vString [] :: List.replicate m (GoVal.vString [])).set
          pre.length (GoVal.vString s) =
          (pre ++ [GoVal.vString s]) ++ List.replicate m (GoVal.vString []) := by
        rw [List.set_append_right _ _ (by omega)]
        simp
      rw [hset]
      rw [show pre.length + 1 = (pre ++ [GoVal.vString s]).length from by simp]
      rw [ih (pre ++ [GoVal.vString s]) m (by omega)]
      simp [Nat.succ_sub_succ]

/-- The `pre = []` case of the fill lemma. -/
theorem setStrings_fill_zero (ss : List (List Nat)) (k : Nat) (h : ss.length ≤ k) :
    setStrings (List.replicate k (GoVal.vString [])) 0 ss =
      ss.map (fun s => GoVal.vString s) ++
        List.replicate (k - ss.length) (GoVal.vString []) := by
  have h2 := setStrings_fill ss [] k h
  simpa using h2

/-- Each encoded element takes at least one wire byte. -/
theorem length_le_flat (ss : List (List Nat)) :
    ss.length ≤ ((ss.map syrupProtoString).flatten).length := by
  induction ss with
  | nil => simp
  | cons s rest ih =>
    simp only [List.map_cons, List.flatten_cons, List.length_append, List.length_cons]
    have h1 : 1 ≤ (syrupProtoString s).length := by
      simp only [syrupProtoString, List.length_append, List.length_cons]
      omega
    omega

/-! ## Claim theorems -/

/-- C1: the spec claims `decode(encode(v)) == v` for every value of a
supported host type.  The code violates it: encoding the string slice
`[]string{"", "a"}` yields the wire bytes of `[0"1"a]`, but decoding those
bytes back into a `[]string` destination returns `["", ""]` with a nil
error — the scanner's length-zero fast path leaves the scanner in the
payload state, so the bytes of `1"a]` are swallowed as payload of the
already-emitted empty string and the trailing `io.EOF` is promoted to
success.  Independently, `uint64` values above the signed 64-bit range
encode fine but fail to decode back into a `uint64` destination (the big
integer is only storable in `*big.Int` or interface destinations). -/
theorem C1_roundtrip_bug :
    Encode (.vSlice false [.vString [], .vString [97]]) = .ok [91, 48, 34, 49, 34, 97, 93] ∧
    Decode [91, 48, 34, 49, 34, 97, 93] (.tSlice .tString) (.vSlice true []) =
      (.vSlice false [.vString [], .vString []], none) ∧
    (GoVal.vSlice false [.vString [], .vString []]) ≠
      .vSlice false [.vString [], .vString [97]] ∧
    Encode (.vUint 64 9223372036854775808) =
      .ok [105, 57, 50, 50, 51, 51, 55, 50, 48, 51, 54, 56, 53, 52, 55, 55, 53, 56, 48, 56,
        101] ∧
    (Decode [105, 57, 50, 50, 51, 51, 55, 50, 48, 51, 54, 56, 53, 52, 55, 55, 53, 56, 48,
      56, 101] (.tUint 64) (.vUint 64 0)).2 =
      some (.invalidTypeErr "big integer" 20) := by
  refine ⟨rfl, rfl, ?_, rfl, rfl⟩
  simp

/-- C2: after the length-0 fast path (`0"` here) the value op is indeed
emitted immediately, but the scanner is left in the `scanString` payload
state with a zero payload counter instead of `scanFindToken`; the next
byte (`i`, which `mustFindToken` would start an integer token with) is
instead appended to the buffer as payload, with the counter wrapping
around to `2^64 - 1`.  End to end, `[0"i5e]` decoded into an interface
destination therefore swallows `i5e]` as payload, hits `io.EOF`, and
`Decode` returns success with the destination left unset, where the claim
promises the list `["", 5]`. -/
theorem C2_fastpath_state_bug :
    Scanner.Process Scanner.fresh 48 = .ok (⟨.scanTokenLen, [48], 0, 0⟩, .noop) ∧
    Scanner.Process ⟨.scanTokenLen, [48], 0, 0⟩ 34 =
      .ok (⟨.scanString, [], 0, 0⟩, .valStringOp) ∧
    Scanner.Process ⟨.scanString, [], 0, 0⟩ 105 =
      .ok (⟨.scanString, [105], 18446744073709551615, 0⟩, .noop) ∧
    syrupProtoMustFindToken 105 = .ok (.scanFirstInt, .noop, false) ∧
    Decode [91, 48, 34, 105, 53, 101, 93] .tIface (.vIface none) = (.vIface none, none) := by
  exact ⟨rfl, rfl, rfl, rfl, rfl⟩

/-- C3: the claim says an `io.EOF` in the middle of a container surfaces
as an error from `Decode`.  It does not: `Decoder.Decode` converts every
`io.EOF` from `run` to success, so the unterminated list `[5"Hello`
decodes with a nil error (and an unset interface destination) even though
`run` itself returned `io.EOF` mid-container.  The second half of the
claim (EOF immediately after a complete top-level value is success) does
hold, shown here on the input `t`. -/
theorem C3_midcontainer_eof_promoted :
    (Decoder.run (decodeFuel [91, 53, 34, 72, 101, 108, 108, 111])
      ⟨[91, 53, 34, 72, 101, 108, 108, 111], Scanner.fresh, 0⟩
      (.rv (.tPtr .tIface) (.vPtr (some (.vIface none))))).2.2.2 = some .eof ∧
    Decode [91, 53, 34, 72, 101, 108, 108, 111] .tIface (.vIface none) =
      (.vIface none, none) ∧
    Decode [116] .tBool (.vBool false) = (.vBool true, none) := by
  exact ⟨rfl, rfl, rfl⟩

/-- C4 counterexample: for the struct type with one exported field `F`
tagged `syrup:"wire"`, a dictionary key equal to the wire name (the bytes
of `{4"wirei5e}`) does NOT match the field on decode: `buildMetadata`
indexes only declared names, the key `wire` is treated as unknown, and
`Decode` returns with `F` still zero — not `5` as the claim requires. -/
theorem C4_wire_name_no_decode_match :
    Decode [123, 52, 34, 119, 105, 114, 101, 105, 53, 101, 125]
      (.tStruct [([70], some [119, 105, 114, 101], .tInt 64, true)])
      (.vStruct [([70], some [119, 105, 114, 101], .tInt 64, true)] [.vInt 64 0]) =
      (.vStruct [([70], some [119, 105, 114, 101], .tInt 64, true)] [.vInt 64 0], none) ∧
    (GoVal.vStruct [([70], some [119, 105, 114, 101], .tInt 64, true)] [.vInt 64 0]) ≠
      .vStruct [([70], some [119, 105, 114, 101], .tInt 64, true)] [.vInt 64 5] := by
  refine ⟨rfl, ?_⟩
  simp

/-- C5: the claim says an unknown dictionary key's value is read and
discarded and decoding continues with the following entries.  The code's
skip path (`d.run` on the invalid `reflect.Value`) never stops — `stop`
stays false for every op, including closes — and never invokes the value
accessors, so the scanner buffer is left dirty; decoding
`{1"Xi5e1"Ii7e}` into a struct with field `I` consumes everything after
the unknown key `X` (the byte run `1"` after `i5e` parses its length
from the polluted buffer `51`), reaches `io.EOF`, reports success, and
leaves `I = 0` where the claim requires `I = 7`.  Decoding `{1"Ii7e}`
alone populates `I = 7`, isolating the unknown key as the cause. -/
theorem C5_unknown_key_swallows_input :
    Decode [123, 49, 34, 88, 105, 53, 101, 49, 34, 73, 105, 55, 101, 125]
      (.tStruct [([73], none, .tInt 64, true)])
      (.vStruct [([73], none, .tInt 64, true)] [.vInt 64 0]) =
      (.vStruct [([73], none, .tInt 64, true)] [.vInt 64 0], none) ∧
    Decode [123, 49, 34, 73, 105, 55, 101, 125]
      (.tStruct [([73], none, .tInt 64, true)])
      (.vStruct [([73], none, .tInt 64, true)] [.vInt 64 0]) =
      (.vStruct [([73], none, .tInt 64, true)] [.vInt 64 7], none) ∧
    (GoVal.vStruct [([73], none, .tInt 64, true)] [.vInt 64 0]) ≠
      .vStruct [([73], none, .tInt 64, true)] [.vInt 64 7] := by
  refine ⟨rfl, rfl, ?_⟩
  simp

/-- C6 counterexample: the claim says an integer one more in magnitude
than ±(2^63 − 1) becomes a big-integer host value.  That is false on the
negative side: `-2^63 = -9223372036854775808` (one more in magnitude than
`-(2^63 - 1)`) still fits a signed 64-bit integer, `syrupProtoInt64Val`
returns it with no big integer, and decoding `i-9223372036854775808e`
into an interface yields an `int64`, not a `*big.Int`. -/
theorem C6_min_int64_not_big :
    syrupProtoInt64Val [45, 57, 50, 50, 51, 51, 55, 50, 48, 51, 54, 56, 53, 52, 55, 55, 53,
      56, 48, 56] = .ok (-9223372036854775808, none) ∧
    Decode [105, 45, 57, 50, 50, 51, 51, 55, 50, 48, 51, 54, 56, 53, 52, 55, 55, 53, 56, 48,
      56, 101] .tIface (.vIface none) =
      (.vIface (some (.vInt 64 (-9223372036854775808))), none) ∧
    (GoVal.vIface (some (.vInt 64 (-9223372036854775808)))) ≠
      .vIface (some (.vBigInt false (-9223372036854775808))) := by
  refine ⟨rfl, rfl, ?_⟩
  simp

/-- C8 counterexample: the claim says extra elements past a fixed-length
array are silently dropped without error.  With two or more extra
length-prefixed elements the skip path pollutes the scanner buffer (the
discarded value's payload is never cleared), so the next length prefix
fails to parse: decoding `[1"a1"b1"c1"d]` into a `[2]string` returns a
scanner syntax error instead of dropping `"c"` and `"d"`. -/
theorem C8_two_extra_elements_error :
    (Decode [91, 49, 34, 97, 49, 34, 98, 49, 34, 99, 49, 34, 100, 93]
      (.tArray 2 .tString) (zeroVal (.tArray 2 .tString))).2 =
      some (.scan .lenSyntax) := by
  exact rfl

/-- C9: decoding a wire integer into an unsigned destination reinterprets
the parsed signed 64-bit value as two's-complement unsigned and
overflow-checks it against the destination width (the `storeInt` equation
below holds for every width and value); consequently `i-1e` decodes into a
`uint64` destination as `2^64 - 1`, while into a `uint8` destination it
fails with the unsigned-overflow error (at byte offset 3, the `e`). -/
theorem C9_unsigned_reinterpret :
    (∀ (off w : Nat) (i : Int), storeInt off (.tUint w) i =
      if ((i % 18446744073709551616).toNat) < 2 ^ w
      then .ok (.vUint w ((i % 18446744073709551616).toNat))
      else .error (.invalidTypeErr "unsigned integer overflow" off)) ∧
    Decode [105, 45, 49, 101] (.tUint 64) (.vUint 64 0) =
      (.vUint 64 18446744073709551615, none) ∧
    Decode [105, 45, 49, 101] (.tUint 8) (.vUint 8 0) =
      (.vUint 8 0, some (.invalidTypeErr "unsigned integer overflow" 3)) := by
  refine ⟨?_, rfl, rfl⟩
  intro off w i
  simp only [storeInt]
  split
  · next h => simp [Nat.not_lt.mpr h]
  · next h => simp [Nat.lt_of_not_le h]

/-- C10: `interfaceSlice`'s collection loop stops only on `closeListOp`
(first two conjuncts: a `closeListOp` returns the collected values minus
the overshoot element, while a `closeSetOp` with exhausted input keeps
reading and hits `io.EOF`), so decoding the top-level set
`#5"Helloi42e$` into an interface destination runs past the `$`, consumes
the entire input (final state below has an empty reader), returns success
via the promoted `io.EOF`, and leaves the destination unset. -/
theorem C10_set_into_interface_runaway :
    (∀ (fuel : Nat) (st : DecSt) (vals : List GoVal),
      ifaceSliceLoop (fuel + 1) st vals .closeListOp = (st, vals.dropLast, none)) ∧
    (∀ (fuel n : Nat) (sc : Scanner) (vals : List GoVal),
      ifaceSliceLoop (fuel + 2) ⟨[], sc, n⟩ vals .closeSetOp =
        (⟨[], sc, n⟩, vals, some .eof)) ∧
    DecodeSt [35, 53, 34, 72, 101, 108, 108, 111, 105, 52, 50, 101, 36] .tIface
      (.vIface none) =
      (⟨[], ⟨.scanFindToken, [], 0, 0⟩, 11⟩, .vIface none, none) := by
  refine ⟨?_, ?_, rfl⟩
  · intro fuel st vals
    simp [ifaceSliceLoop, decExec]
  · intro fuel n sc vals
    simp [ifaceSliceLoop, decExec]

/-- C7: every payload byte of a length-prefixed token with remaining count
`nlen ≥ 1` — whatever its value, including wire introducer bytes — is
appended to the buffer; the state is unchanged (with a `noop` op) while
`nlen > 1`, and on the final byte the token's value op is emitted and the
scanner returns to `scanFindToken`. -/
theorem C7_payload_byte_opaque (s0 : ScanState) (buf : List Nat) (nlen fnlen b : Nat)
    (hs : s0 = .scanString ∨ s0 = .scanSymbol ∨ s0 = .scanByteArr) (hn : 1 ≤ nlen) :
    Scanner.Process ⟨s0, buf, nlen, fnlen⟩ b =
      .ok (⟨if nlen = 1 then .scanFindToken else s0, buf ++ [b], nlen - 1, fnlen⟩,
        if nlen = 1 then lengthKindOp s0 else .noop) :=
  process_payload s0 buf nlen fnlen b hs hn

/-- Witness: the final payload byte of a length-1 string token is `[` (91),
which is buffered as payload and fires the string value op. -/
theorem C7_payload_byte_opaque_witness :
    Scanner.Process ⟨.scanString, [], 1, 0⟩ 91 =
      .ok (⟨.scanFindToken, [91], 0, 0⟩, .valStringOp) := by
  have h := C7_payload_byte_opaque .scanString [] 1 0 91 (Or.inl rfl) (by omega)
  simpa [lengthKindOp] using h

/-- C4 (amended): the syrup tag affects only the encoder.  Encoding a
one-field struct writes the tag as the dictionary key (first conjunct, for
every field name, tag, value and encoding of the value); the decoder's
metadata is built from declared names only, so it is invariant under
erasing every tag (second conjunct); and a dictionary key equal to the
DECLARED name `F` populates the tagged field (third conjunct, the bytes of
the dictionary containing the key `F` and the value 5). -/
theorem C4_tag_affects_encode_only (name tag : List Nat) (t : GoTy) (v : GoVal)
    (bs : List Nat) (h : Encode v = .ok bs) :
    Encode (.vStruct [(name, some tag, t, true)] [v]) =
      .ok ([123] ++ syrupProtoString tag ++ bs ++ [125]) ∧
    (∀ decl, buildMetadata (stripTags decl) = buildMetadata decl) ∧
    Decode [123, 49, 34, 70, 105, 53, 101, 125]
      (.tStruct [([70], some [119, 105, 114, 101], .tInt 64, true)])
      (.vStruct [([70], some [119, 105, 114, 101], .tInt 64, true)] [.vInt 64 0]) =
      (.vStruct [([70], some [119, 105, 114, 101], .tInt 64, true)] [.vInt 64 5],
        none) := by
  refine ⟨?_, ?_, rfl⟩
  · simp [Encode, encodeStructFields, h, syrupProtoDictOpen, syrupProtoDictClose]
  · intro decl
    unfold buildMetadata
    exact buildMetadataGo_stripTags decl 0 _

/-- Witness: encoding the struct with field `F` tagged `wire` holding 5
writes the key `wire` (not `F`). -/
theorem C4_tag_affects_encode_only_witness :
    Encode (.vStruct [([70], some [119, 105, 114, 101], .tInt 64, true)] [.vInt 64 5]) =
      .ok ([123] ++ syrupProtoString [119, 105, 114, 101] ++ [105, 53, 101] ++ [125]) :=
  (C4_tag_affects_encode_only [70] [119, 105, 114, 101] (.tInt 64) (.vInt 64 5)
    [105, 53, 101] rfl).1

/-- C6 (amended): for every nonempty digit run (with optional minus sign)
denoting a value in the signed 64-bit range, `int64Val` returns that value
with no big integer (first conjunct).  The boundary behaviour is
asymmetric: ±(2^63 − 1) round-trip as int64, `2^63` becomes a big integer,
but `-2^63` — one more in magnitude than −(2^63 − 1) — is still an int64;
only `-(2^63 + 1)` becomes a big integer; decoding `i2^63e` into an
interface stores a `*big.Int`. -/
theorem C6_int64_range_boundary (neg : Bool) (ds : List Nat)
    (h1 : ds ≠ []) (h2 : ∀ d ∈ ds, isDigitByte d)
    (h3 : -9223372036854775808 ≤ intDenote neg ds)
    (h4 : intDenote neg ds ≤ 9223372036854775807) :
    syrupProtoInt64Val ((if neg then [45] else []) ++ ds) =
      .ok (intDenote neg ds, none) ∧
    syrupProtoInt64Val [57, 50, 50, 51, 51, 55, 50, 48, 51, 54, 56, 53, 52, 55, 55, 53, 56,
      48, 55] = .ok (9223372036854775807, none) ∧
    syrupProtoInt64Val [45, 57, 50, 50, 51, 51, 55, 50, 48, 51, 54, 56, 53, 52, 55, 55, 53,
      56, 48, 55] = .ok (-9223372036854775807, none) ∧
    syrupProtoInt64Val [57, 50, 50, 51, 51, 55, 50, 48, 51, 54, 56, 53, 52, 55, 55, 53, 56,
      48, 56] = .ok (0, some 9223372036854775808) ∧
    syrupProtoInt64Val [45, 57, 50, 50, 51, 51, 55, 50, 48, 51, 54, 56, 53, 52, 55, 55, 53,
      56, 48, 56] = .ok (-9223372036854775808, none) ∧
    syrupProtoInt64Val [45, 57, 50, 50, 51, 51, 55, 50, 48, 51, 54, 56, 53, 52, 55, 55, 53,
      56, 48, 57] = .ok (0, some (-9223372036854775809)) ∧
    Decode [105, 57, 50, 50, 51, 51, 55, 50, 48, 51, 54, 56, 53, 52, 55, 55, 53, 56, 48, 56,
      101] .tIface (.vIface none) =
      (.vIface (some (.vBigInt false 9223372036854775808)), none) := by
  refine ⟨?_, rfl, rfl, rfl, rfl, rfl, rfl⟩
  cases neg with
  | true =>
    simp only [intDenote] at h3 h4
    simp at h3 h4
    have hx : ((if (true : Bool) then [45] else []) ++ ds : List Nat) = 45 :: ds := by simp
    rw [hx]
    simp only [syrupProtoInt64Val, decDigitsVal_denotes ds h1 h2]
    rw [if_neg]
    · simp [intDenote]
    · simp only [if_true, Bool.or_eq_true, decide_eq_true_eq, not_or, not_lt]
      omega
  | false =>
    simp only [intDenote] at h3 h4
    simp at h3 h4
    have hx : ((if (false : Bool) then [45] else []) ++ ds : List Nat) = ds := by simp
    rw [hx]
    cases ds with
    | nil => exact absurd rfl h1
    | cons d rest =>
      obtain ⟨hd1, hd2⟩ : 48 ≤ d ∧ d ≤ 57 := by
        simpa [isDigitByte] using h2 d (List.mem_cons_self d rest)
      have hdv := decDigitsVal_denotes (d :: rest) h1 h2
      interval_cases d <;>
      · simp only [syrupProtoInt64Val, hdv]
        rw [if_neg]
        · simp [intDenote]
        · simp only [if_false, Bool.or_eq_true, decide_eq_true_eq, not_or, not_lt]
          omega

/-- Witness: the digit run `42` parses as the int64 42 with no big
integer. -/
theorem C6_int64_range_boundary_witness :
    syrupProtoInt64Val [52, 50] = .ok (42, none) := by
  have h := (C6_int64_range_boundary false [52, 50] (by decide) (by decide)
    (by simp [intDenote, digitRunVal, Nat.ofDigits])
    (by simp [intDenote, digitRunVal, Nat.ofDigits])).1
  simpa [intDenote, digitRunVal, Nat.ofDigits] using h

/-- C8 (amended): decoding a wire list of `n ≤ k` nonempty string elements
(each shorter than `2^64` bytes) into a `[k]string` destination stores
them in order and zero-fills the remaining slots, without error (first
conjunct, for every such element list and every `k`).  The claim's
concrete scenarios hold: `[5"Hello7"PtrToIt6"World!]` into a length-2
array gives ["Hello", "PtrToIt"] and into a length-5 array gives
["Hello", "PtrToIt", "World!", "", ""] (second and third conjuncts).
Extra elements are dropped silently whenever the skip run's leftover
buffer does not corrupt the next length prefix: `[i1ei2ei3ei4e]` into
`[2]int64` gives [1, 2] and `[1"a1"b1"11"2]` into `[2]string` gives
["a", "b"], both with two extra elements and no error (fourth and fifth
conjuncts) — but the drop is not reliable (see the counterexample, where
the polluted buffer corrupts the next length prefix and decoding fails).
The `n ≤ k` guarantee also needs the elements nonempty: `[0"1"a]` into
`[2]string` gives ["", ""], the length-0 fast path swallowing `1"a` as
payload (sixth conjunct). -/
theorem C8_array_fill_trim_pad (ss : List (List Nat)) (k : Nat)
    (h1 : ∀ s ∈ ss, s ≠ [] ∧ s.length < 18446744073709551616)
    (h2 : ss.length ≤ k) :
    Decode ([91] ++ (ss.map syrupProtoString).flatten ++ [93]) (.tArray k .tString)
        (.vArray (List.replicate k (.vString []))) =
      (.vArray (ss.map (fun s => GoVal.vString s) ++
          List.replicate (k - ss.length) (.vString [])), none) ∧
    Decode [91, 53, 34, 72, 101, 108, 108, 111, 55, 34, 80, 116, 114, 84, 111, 73, 116, 54,
        34, 87, 111, 114, 108, 100, 33, 93] (.tArray 2 .tString)
        (.vArray [.vString [], .vString []]) =
      (.vArray [.vString [72, 101, 108, 108, 111],
        .vString [80, 116, 114, 84, 111, 73, 116]], none) ∧
    Decode [91, 53, 34, 72, 101, 108, 108, 111, 55, 34, 80, 116, 114, 84, 111, 73, 116, 54,
        34, 87, 111, 114, 108, 100, 33, 93] (.tArray 5 .tString)
        (.vArray (List.replicate 5 (.vString []))) =
      (.vArray [.vString [72, 101, 108, 108, 111], .vString [80, 116, 114, 84, 111, 73, 116],
        .vString [87, 111, 114, 108, 100, 33], .vString [], .vString []], none) ∧
    Decode [91, 105, 49, 101, 105, 50, 101, 105, 51, 101, 105, 52, 101, 93]
        (.tArray 2 (.tInt 64)) (.vArray [.vInt 64 0, .vInt 64 0]) =
      (.vArray [.vInt 64 1, .vInt 64 2], none) ∧
    Decode [91, 49, 34, 97, 49, 34, 98, 49, 34, 49, 49, 34, 50, 93] (.tArray 2 .tString)
        (.vArray [.vString [], .vString []]) =
      (.vArray [.vString [97], .vString [98]], none) ∧
    Decode [91, 48, 34, 49, 34, 97, 93] (.tArray 2 .tString)
        (.vArray [.vString [], .vString []]) =
      (.vArray [.vString [], .vString []], none) := by
  refine ⟨?_, rfl, rfl, rfl, rfl, rfl⟩
  have hfl : ss.length ≤ ((ss.map syrupProtoString).flatten).length := length_le_flat ss
  have hinput : [91] ++ (ss.map syrupProtoString).flatten ++ [93] =
      91 :: ((ss.map syrupProtoString).flatten ++ [93]) := by simp
  have hfuel : decodeFuel (91 :: ((ss.map syrupProtoString).flatten ++ [93])) =
      7 * ((ss.map syrupProtoString).flatten).length + 71 - ss.length +
        ((ss.map syrupProtoString).flatten).length + ss.length + 4 + 5 := by
    simp only [decodeFuel, List.length_cons, List.length_append, List.length_nil]
    omega
  have hAL := decStep_array_loop ss
    (7 * ((ss.map syrupProtoString).flatten).length + 71 - ss.length) k 0
    (List.replicate k (GoVal.vString [])) 1 0 .noop h1 (by omega) (by simp) (by simp)
  by_cases hk : 0 + ss.length < k
  · rw [if_pos hk] at hAL
    have hOLA := decStep_open_array
      (7 * ((ss.map syrupProtoString).flatten).length + 71 - ss.length +
        ((ss.map syrupProtoString).flatten).length + ss.length + 4)
      ((ss.map syrupProtoString).flatten ++ [93]) [] 0 0
      (1 + ((ss.map syrupProtoString).flatten).length) k (0 + ss.length + 1)
      (List.replicate k (GoVal.vString []))
      (setStrings (List.replicate k (GoVal.vString [])) 0 ss) none .noop hAL
    simp only [Decode, DecodeSt, Decoder.run, runLoop, hinput, hfuel, Scanner.fresh]
    rw [hOLA]
    have htake : ((setStrings (List.replicate k (GoVal.vString [])) 0 ss).take
        ss.length) = ss.map (fun s => GoVal.vString s) := by
      rw [setStrings_fill_zero ss k (by omega)]
      rw [show ss.length = (ss.map (fun s => GoVal.vString s)).length from by simp]
      exact List.take_left _ _
    simp [htake, zeroVal]
  · rw [if_neg hk] at hAL
    have hOLA := decStep_open_array
      (7 * ((ss.map syrupProtoString).flatten).length + 71 - ss.length +
        ((ss.map syrupProtoString).flatten).length + ss.length + 4)
      ((ss.map syrupProtoString).flatten ++ [93]) [] 0 0
      (1 + ((ss.map syrupProtoString).flatten).length + 1) k (0 + ss.length)
      (List.replicate k (GoVal.vString []))
      (setStrings (List.replicate k (GoVal.vString [])) 0 ss) (some .eof) .noop hAL
    simp only [Decode, DecodeSt, Decoder.run, runLoop, hinput, hfuel, Scanner.fresh]
    rw [hOLA]
    simp [setStrings_fill_zero ss k (by omega)]

/-- Witness: the two-element list `[1"a1"b]` into a `[3]string` destination
fills the first two slots and zero-pads the third, with no error. -/
theorem C8_array_fill_trim_pad_witness :
    Decode [91, 49, 34, 97, 49, 34, 98, 93] (.tArray 3 .tString)
        (.vArray [.vString [], .vString [], .vString []]) =
      (.vArray [.vString [97], .vString [98], .vString []], none) :=
  (C8_array_fill_trim_pad [[97], [98]] 3 (by decide) (by decide)).1

end Syrup
